import Mathlib

/-!
Verification of the XKT V6 converter core (model builder, kd-tree tiler,
and format-V6 parser) against its natural-language specification.

The functions below are a shallow embedding of the JavaScript source:

* `Model.js` (class `Model`: `createPrimitive`, `createEntity`,
  `createTiles`, `_createKDTree`, `_insertEntityIntoKDTree`,
  `_createTilesFromKDNode`, `_createTileFromEntities`);
* `Primitive.js`, `Entity.js`, `PrimitiveInstance.js` (data containers);
* the V6 parser (`extract` / `inflate` / `load`).

Numbers are embedded as rationals (`ℚ`); typed-array elements are `ℕ` or
`ℤ` as appropriate.  The external `math` and `geometryCompression`
libraries are not part of the repository core; functions taken from them
are modelled from the specification and marked as such in their doc
comments.
-/

namespace XKT

/-- Axis-aligned bounding box, six floats `(xmin, ymin, zmin, xmax, ymax, zmax)`
as in the source's flat `Float32Array` AABBs. -/
structure AABB where
  xmin : ℚ
  ymin : ℚ
  zmin : ℚ
  xmax : ℚ
  ymax : ℚ
  zmax : ℚ
deriving DecidableEq, Repr

/-- Lower bound of an AABB along axis `d` (source: `aabb[d]`). -/
def AABB.lo (a : AABB) (d : Fin 3) : ℚ :=
  match d with
  | 0 => a.xmin
  | 1 => a.ymin
  | 2 => a.zmin

/-- Upper bound of an AABB along axis `d` (source: `aabb[d + 3]`). -/
def AABB.hi (a : AABB) (d : Fin 3) : ℚ :=
  match d with
  | 0 => a.xmax
  | 1 => a.ymax
  | 2 => a.zmax

/-- Replace the lower bound along axis `d` (source: `aabb[d] = v`). -/
def AABB.setLo (a : AABB) (d : Fin 3) (v : ℚ) : AABB :=
  match d with
  | 0 => { a with xmin := v }
  | 1 => { a with ymin := v }
  | 2 => { a with zmin := v }

/-- Replace the upper bound along axis `d` (source: `aabb[d + 3] = v`). -/
def AABB.setHi (a : AABB) (d : Fin 3) (v : ℚ) : AABB :=
  match d with
  | 0 => { a with xmax := v }
  | 1 => { a with ymax := v }
  | 2 => { a with zmax := v }

/-- Minimum of two rationals by direct comparison (kernel-reducible,
matching the JavaScript `Math.min`). -/
def qmin (a b : ℚ) : ℚ := if a ≤ b then a else b

/-- Maximum of two rationals by direct comparison (kernel-reducible,
matching the JavaScript `Math.max`). -/
def qmax (a b : ℚ) : ℚ := if b ≤ a then a else b

/-- Absolute value of a rational by direct comparison. -/
def qabs (a : ℚ) : ℚ := if a < 0 then -a else a

/-- Sentinel standing for the JavaScript `Number.MAX_VALUE` used by the
collapsed (empty) AABB; any coordinate occurring in a model is far below it. -/
def QMAX : ℚ := 179769313486231590772930519078902473361797697894230657273430081157732675805500963132708477322407536021120113879871393357658789768814416622492847430639474124377767893424865485276302219601246094119453082952085005768838150682342462881473913110540827237163350510684586298239947245938479716304835356329624224137216

/-- Modelled from the spec: `math.collapseAABB3()` of the external math
library — an AABB collapsed to the empty sentinel state
(mins at `MAX_VALUE`, maxes at `-MAX_VALUE`) so that expanding it by any
point yields that point. -/
def collapseAABB3 : AABB :=
  ⟨QMAX, QMAX, QMAX, -QMAX, -QMAX, -QMAX⟩

/-- Modelled from the spec: `math.expandAABB3Point3(aabb, p)` — grow the
AABB to include the point `p`. -/
def expandAABB3Point3 (a : AABB) (p : ℚ × ℚ × ℚ) : AABB :=
  ⟨qmin a.xmin p.1, qmin a.ymin p.2.1, qmin a.zmin p.2.2,
   qmax a.xmax p.1, qmax a.ymax p.2.1, qmax a.zmax p.2.2⟩

/-- Modelled from the spec: `math.expandAABB3(aabb1, aabb2)` — grow
`aabb1` to include `aabb2`. -/
def expandAABB3 (a b : AABB) : AABB :=
  ⟨qmin a.xmin b.xmin, qmin a.ymin b.ymin, qmin a.zmin b.zmin,
   qmax a.xmax b.xmax, qmax a.ymax b.ymax, qmax a.zmax b.zmax⟩

/-- Modelled from the spec: `math.containsAABB3(aabb1, aabb2)` — whether
`aabb1` fully contains `aabb2` (componentwise on mins and maxes). -/
def containsAABB3 (a b : AABB) : Bool :=
  decide (a.xmin ≤ b.xmin) && decide (b.xmax ≤ a.xmax) &&
  decide (a.ymin ≤ b.ymin) && decide (b.ymax ≤ a.ymax) &&
  decide (a.zmin ≤ b.zmin) && decide (b.zmax ≤ a.zmax)

/-- Modelled from the spec: `math.getAABB3Center(aabb)` — the centre point. -/
def getAABB3Center (a : AABB) : ℚ × ℚ × ℚ :=
  ((a.xmin + a.xmax) / 2, (a.ymin + a.ymax) / 2, (a.zmin + a.zmax) / 2)

/-- A 4×4 matrix as the source's flat, column-major 16-element array. -/
def Mat4 := List ℚ
deriving DecidableEq, Repr

/-- Element access into a flat matrix (missing entries read as 0). -/
def mg (m : Mat4) (i : ℕ) : ℚ := List.getD m i 0

/-- The identity matrix in flat column-major form. -/
def identityMat4 : Mat4 :=
  [1, 0, 0, 0, 0, 1, 0, 0, 0, 0, 1, 0, 0, 0, 0, 1]

/-- Modelled from the spec: `math.mat4()` of the external math library —
a freshly allocated zero-filled 16-element matrix (JavaScript
`new Float32Array(16)`), used to initialise
`Model.instancedPrimitivesDecodeMatrix`. -/
def mat4Zero : Mat4 := List.replicate 16 (0 : ℚ)

/-- Modelled from the spec: `math.transposeMat4` — transpose of a flat
column-major 4×4 matrix. -/
def transposeMat4 (m : Mat4) : Mat4 :=
  [mg m 0, mg m 4, mg m 8, mg m 12,
   mg m 1, mg m 5, mg m 9, mg m 13,
   mg m 2, mg m 6, mg m 10, mg m 14,
   mg m 3, mg m 7, mg m 11, mg m 15]

/-- Modelled from the spec: `math.inverseMat4` — inverse of a 4×4 matrix
by the cofactor (adjugate) method, the gl-matrix-style routine the
external math library uses.  Division by a zero determinant yields the
zero matrix (rational division by zero is zero); all uses in the claims
are on invertible matrices. -/
def inverseMat4 (m : Mat4) : Mat4 :=
  let a00 := mg m 0; let a01 := mg m 1; let a02 := mg m 2; let a03 := mg m 3
  let a10 := mg m 4; let a11 := mg m 5; let a12 := mg m 6; let a13 := mg m 7
  let a20 := mg m 8; let a21 := mg m 9; let a22 := mg m 10; let a23 := mg m 11
  let a30 := mg m 12; let a31 := mg m 13; let a32 := mg m 14; let a33 := mg m 15
  let b00 := a00 * a11 - a01 * a10
  let b01 := a00 * a12 - a02 * a10
  let b02 := a00 * a13 - a03 * a10
  let b03 := a01 * a12 - a02 * a11
  let b04 := a01 * a13 - a03 * a11
  let b05 := a02 * a13 - a03 * a12
  let b06 := a20 * a31 - a21 * a30
  let b07 := a20 * a32 - a22 * a30
  let b08 := a20 * a33 - a23 * a30
  let b09 := a21 * a32 - a22 * a31
  let b10 := a21 * a33 - a23 * a31
  let b11 := a22 * a33 - a23 * a32
  let det := b00 * b11 - b01 * b10 + b02 * b09 + b03 * b08 - b04 * b07 + b05 * b06
  let invDet := 1 / det
  [(a11 * b11 - a12 * b10 + a13 * b09) * invDet,
   (a02 * b10 - a01 * b11 - a03 * b09) * invDet,
   (a31 * b05 - a32 * b04 + a33 * b03) * invDet,
   (a22 * b04 - a21 * b05 - a23 * b03) * invDet,
   (a12 * b08 - a10 * b11 - a13 * b07) * invDet,
   (a00 * b11 - a02 * b08 + a03 * b07) * invDet,
   (a32 * b02 - a30 * b05 - a33 * b01) * invDet,
   (a20 * b05 - a22 * b02 + a23 * b01) * invDet,
   (a10 * b10 - a11 * b08 + a13 * b06) * invDet,
   (a01 * b08 - a00 * b10 - a03 * b06) * invDet,
   (a30 * b04 - a31 * b02 + a33 * b00) * invDet,
   (a21 * b02 - a20 * b04 - a23 * b00) * invDet,
   (a11 * b07 - a10 * b09 - a12 * b06) * invDet,
   (a00 * b09 - a01 * b07 + a02 * b06) * invDet,
   (a31 * b01 - a30 * b03 - a32 * b00) * invDet,
   (a20 * b03 - a21 * b01 + a22 * b00) * invDet]

/-- Modelled from the spec: `math.transformPoint4` applied to `(x, y, z, 1)` —
transform a point by a column-major 4×4 matrix (the source only ever reads
back the first three components). -/
def transformPoint4 (m : Mat4) (p : ℚ × ℚ × ℚ) : ℚ × ℚ × ℚ :=
  (mg m 0 * p.1 + mg m 4 * p.2.1 + mg m 8 * p.2.2 + mg m 12,
   mg m 1 * p.1 + mg m 5 * p.2.1 + mg m 9 * p.2.2 + mg m 13,
   mg m 2 * p.1 + mg m 6 * p.2.1 + mg m 10 * p.2.2 + mg m 14)

/-- Modelled from the spec: direction transform (no translation) used on
normals by the geometry-compression library. -/
def transformVec3 (m : Mat4) (p : ℚ × ℚ × ℚ) : ℚ × ℚ × ℚ :=
  (mg m 0 * p.1 + mg m 4 * p.2.1 + mg m 8 * p.2.2,
   mg m 1 * p.1 + mg m 5 * p.2.1 + mg m 9 * p.2.2,
   mg m 2 * p.1 + mg m 6 * p.2.1 + mg m 10 * p.2.2)

/-- Rounding with ties away from zero, as the spec requires for
oct-encoding ("rounding ties away from zero to avoid −0 asymmetry"). -/
def roundAway (q : ℚ) : ℤ :=
  if 0 ≤ q then ⌊q + 1 / 2⌋ else -⌊-q + 1 / 2⌋

/-- Rounding half up, the JavaScript `Math.round`, used for position
quantization. -/
def roundHalfUp (q : ℚ) : ℤ := ⌊q + 1 / 2⌋

/-- Sign used by the octahedral fold (non-negative values count as +1). -/
def octSign (q : ℚ) : ℚ := if 0 ≤ q then 1 else -1

/-- Modelled from the spec: octahedral projection of a direction to a
signed-8-bit pair (range −127..127).  The standard projection divides by
the L1 norm and folds the lower hemisphere; it is invariant under positive
scaling, so the library's unit-normalisation step is omitted.  A zero
vector maps to `(0, 0)` (rational division by zero is zero). -/
def octEncodeVec3 (p : ℚ × ℚ × ℚ) : List ℤ :=
  let s := qabs p.1 + qabs p.2.1 + qabs p.2.2
  let u := p.1 / s
  let v := p.2.1 / s
  let u2 := if p.2.2 < 0 then (1 - qabs v) * octSign u else u
  let v2 := if p.2.2 < 0 then (1 - qabs u) * octSign v else v
  [roundAway (u2 * 127), roundAway (v2 * 127)]

/-- Transform each normal triple of the flat array by `m` and oct-encode
it, yielding the stream of oct pairs (a trailing partial triple, which the
source would read as NaN, is ignored). -/
def octPairs (m : Mat4) : List ℚ → List ℤ
  | x :: y :: z :: rest => octEncodeVec3 (transformVec3 m (x, y, z)) ++ octPairs m rest
  | _ => []

/-- Modelled from the spec:
`geometryCompression.transformAndOctEncodeNormals(matrix, normals, len, dest, 0)` —
transforms every normal by `matrix` and oct-encodes it into `dest`, an
`Int8Array` the caller allocated with one slot per input component
(`Model.js` line 134); the slots not taken by the written pairs keep their
zero initialisation. -/
def transformAndOctEncodeNormals (m : Mat4) (normals : List ℚ) : List ℤ :=
  let pairs := octPairs m normals
  pairs ++ List.replicate (normals.length - pairs.length) 0

/-- Transform each position triple of a flat array in place by the
modeling matrix (`Model.js` lines 117–128); a trailing partial triple is
left unchanged. -/
def transformPositions (m : Mat4) : List ℚ → List ℚ
  | x :: y :: z :: rest =>
    let q := transformPoint4 m (x, y, z)
    q.1 :: q.2.1 :: q.2.2 :: transformPositions m rest
  | rest => rest

/-- Expand an AABB by every (un-transformed) position triple of a flat
array (`Model.js` lines 196–203). -/
def expandByTriples (a : AABB) : List ℚ → AABB
  | x :: y :: z :: rest => expandByTriples (expandAABB3Point3 a (x, y, z)) rest
  | _ => a

/-- Expand an AABB by every position triple transformed through the
modeling matrix (`Model.js` lines 181–190). -/
def expandByTransformedTriples (m : Mat4) (a : AABB) : List ℚ → AABB
  | x :: y :: z :: rest =>
    expandByTransformedTriples m (expandAABB3Point3 a (transformPoint4 m (x, y, z))) rest
  | _ => a

/-- Clamp an integer to the 16-bit unsigned range, as quantization does. -/
def clamp16 (z : ℤ) : ℕ := (if z ≤ 0 then 0 else if (65535 : ℤ) ≤ z then 65535 else z).toNat

/-- Quantize one coordinate against an axis range per the spec formula
`round((p - min) / (max - min) * 65535)`, clamped to `[0, 65535]`. -/
def quantizeCoord (p lo hi : ℚ) : ℕ :=
  clamp16 (roundHalfUp ((p - lo) / (hi - lo) * 65535))

/-- Modelled from the spec:
`geometryCompression.quantizePositions(positions, len, aabb, dest)` —
quantize a flat position array against an AABB into 16-bit unsigned
triples. -/
def quantizePositions (a : AABB) : List ℚ → List ℕ
  | x :: y :: z :: rest =>
    quantizeCoord x a.xmin a.xmax :: quantizeCoord y a.ymin a.ymax ::
    quantizeCoord z a.zmin a.zmax :: quantizePositions a rest
  | _ => []

/-- Modelled from the spec:
`geometryCompression.createPositionsDecodeMatrix(aabb, dest)` — the 4×4
affine (flat column-major) mapping 16-bit-normalized coordinates back to
the AABB: scale `(max - min) / 65535` per axis, translation `min`. -/
def createPositionsDecodeMatrix (a : AABB) : Mat4 :=
  [(a.xmax - a.xmin) / 65535, 0, 0, 0,
   0, (a.ymax - a.ymin) / 65535, 0, 0,
   0, 0, (a.zmax - a.zmin) / 65535, 0,
   a.xmin, a.ymin, a.zmin, 1]

/-- Cut a flat index list into triangles (trailing partial triple dropped). -/
def triangleList : List ℕ → List (ℕ × ℕ × ℕ)
  | a :: b :: c :: rest => (a, b, c) :: triangleList rest
  | _ => []

/-- Read vertex `i` from a flat position array. -/
def vertexAt (positions : List ℚ) (i : ℕ) : ℚ × ℚ × ℚ :=
  (List.getD positions (3 * i) 0, List.getD positions (3 * i + 1) 0,
   List.getD positions (3 * i + 2) 0)

/-- Componentwise difference of points. -/
def subV (p q : ℚ × ℚ × ℚ) : ℚ × ℚ × ℚ :=
  (p.1 - q.1, p.2.1 - q.2.1, p.2.2 - q.2.2)

/-- Cross product. -/
def crossV (p q : ℚ × ℚ × ℚ) : ℚ × ℚ × ℚ :=
  (p.2.1 * q.2.2 - p.2.2 * q.2.1,
   p.2.2 * q.1 - p.1 * q.2.2,
   p.1 * q.2.1 - p.2.1 * q.1)

/-- Dot product. -/
def dotV (p q : ℚ × ℚ × ℚ) : ℚ :=
  p.1 * q.1 + p.2.1 * q.2.1 + p.2.2 * q.2.2

/-- Unnormalised triangle normal. -/
def triNormal (positions : List ℚ) (t : ℕ × ℕ × ℕ) : ℚ × ℚ × ℚ :=
  crossV (subV (vertexAt positions t.2.1) (vertexAt positions t.1))
         (subV (vertexAt positions t.2.2) (vertexAt positions t.1))

/-- Rational stand-in for `cos² 10°` used by the dihedral-angle test of
the edge extractor (the default 10° threshold); the exact value is
irrational, so a fixed decimal approximation represents it. -/
def cos10sq : ℚ := 9698463103929543 / 10 ^ 16

/-- Whether the dihedral angle between two (unnormalised) triangle
normals exceeds the 10° threshold: the angle exceeds 10° iff the cosine
falls below `cos 10°`, tested without square roots by comparing the
signed dot product against `cos² 10°` times the squared norms. -/
def sharpEdge (n1 n2 : ℚ × ℚ × ℚ) : Bool :=
  let d := dotV n1 n2
  decide (d < 0) || decide (d * d < cos10sq * dotV n1 n1 * dotV n2 n2)

/-- The three edges of a triangle in scan order, smaller vertex first. -/
def triEdges (t : ℕ × ℕ × ℕ) : List (ℕ × ℕ) :=
  [(min t.1 t.2.1, max t.1 t.2.1),
   (min t.2.1 t.2.2, max t.2.1 t.2.2),
   (min t.2.2 t.1, max t.2.2 t.1)]

/-- All normals of triangles containing a given edge. -/
def edgeTriNormals (positions : List ℚ) (tris : List (ℕ × ℕ × ℕ)) (e : ℕ × ℕ) :
    List (ℚ × ℚ × ℚ) :=
  (tris.filter (fun t => e ∈ triEdges t)).map (triNormal positions)

/-- Whether an edge should be emitted: boundary edges (exactly one
incident triangle) always, shared edges when some incident pair of
triangle normals exceeds the dihedral threshold. -/
def emitEdge (positions : List ℚ) (tris : List (ℕ × ℕ × ℕ)) (e : ℕ × ℕ) : Bool :=
  match edgeTriNormals positions tris e with
  | [_] => true
  | ns => ns.any (fun n1 => ns.any (fun n2 => n1 ≠ n2 && sharpEdge n1 n2))

/-- Deduplicating scan over the edge occurrence list. -/
def edgeScan (positions : List ℚ) (tris : List (ℕ × ℕ × ℕ)) :
    List (ℕ × ℕ) → List (ℕ × ℕ) → List ℕ
  | _, [] => []
  | seen, e :: rest =>
    if e ∈ seen then edgeScan positions tris seen rest
    else if emitEdge positions tris e then
      e.1 :: e.2 :: edgeScan positions tris (e :: seen) rest
    else
      edgeScan positions tris (e :: seen) rest

/-- Modelled from the spec: `buildEdgeIndices(positions, indices, null, 10)`
of the external library — emit, in triangle-scan order with the smaller
vertex index first, every boundary edge and every shared edge whose
dihedral angle exceeds the 10° threshold. -/
def buildEdgeIndices (positions : List ℚ) (indices : List ℕ) : List ℕ :=
  let tris := triangleList indices
  edgeScan positions tris [] (tris.map triEdges).flatten

/-! ## The model graph (`Primitive.js`, `Entity.js`, `PrimitiveInstance.js`, `Model.js`) -/

/-- `Primitive.js`: an element of geometry.  Object references are
replaced by dense indices (`primitiveIndex` into `Model.primitivesList`). -/
structure Primitive where
  primitiveId : String
  primitiveIndex : ℕ
  color : List ℚ
  opacity : ℚ
  reused : Bool
  positions : List ℚ
  positionsQuantized : List ℕ
  normalsOctEncoded : List ℤ
  indices : List ℕ
  edgeIndices : List ℕ
deriving DecidableEq, Repr

/-- `PrimitiveInstance.js`: the usage of a primitive by an entity;
`entityIndex` is `none` until `createEntity` back-fills it. -/
structure PrimitiveInstance where
  primitiveInstanceIndex : ℕ
  primitiveIndex : ℕ
  entityIndex : Option ℕ
deriving DecidableEq, Repr

/-- `Entity.js`: a named object; `primitiveInstances` holds indices into
`Model.primitiveInstancesList`. -/
structure Entity where
  entityId : String
  entityIndex : ℕ
  matrix : Mat4
  primitiveInstances : List ℕ
  aabb : AABB
  hasReusedPrimitives : Bool
deriving DecidableEq, Repr

/-- `Tile.js`: a spatial bucket; `entities` holds entity indices. -/
structure Tile where
  aabb : AABB
  decodeMatrix : Mat4
  entities : List ℕ
deriving DecidableEq, Repr

/-- `Model.js`: the root container.  The JavaScript id→object maps become
association lists from id to dense index, kept in property-creation
order as JavaScript objects do. -/
structure Model where
  instancedPrimitivesDecodeMatrix : Mat4
  primitives : List (String × ℕ)
  primitivesList : List Primitive
  primitiveInstancesList : List PrimitiveInstance
  entities : List (String × ℕ)
  entitiesList : List Entity
  tilesList : List Tile
deriving DecidableEq, Repr

/-- The freshly constructed model (`Model.js` constructor):
`instancedPrimitivesDecodeMatrix` starts as the zero-filled `math.mat4()`. -/
def emptyModel : Model :=
  ⟨mat4Zero, [], [], [], [], [], []⟩

/-- Property lookup on a JavaScript object modelled as an association
list (`this.primitives[id]`). -/
def jsGet (l : List (String × ℕ)) (k : String) : Option ℕ :=
  match l with
  | [] => none
  | kv :: rest => if kv.1 = k then some kv.2 else jsGet rest k

/-- Property assignment on a JavaScript object: overwriting an existing
key keeps its original position in property order, a new key is appended. -/
def jsSet (l : List (String × ℕ)) (k : String) (v : ℕ) : List (String × ℕ) :=
  match l with
  | [] => [(k, v)]
  | kv :: rest => if kv.1 = k then (k, v) :: rest else kv :: jsSet rest k v

/-- Fallback values for out-of-range list reads (never reached on the
concrete models of this file). -/
def defaultPrimitive : Primitive :=
  ⟨"", 0, [], 0, false, [], [], [], [], []⟩

/-- Fallback entity for out-of-range list reads. -/
def defaultEntity : Entity :=
  ⟨"", 0, [], [], collapseAABB3, false⟩

/-- Fallback instance for out-of-range list reads. -/
def defaultInstance : PrimitiveInstance :=
  ⟨0, 0, none⟩

/-- Fallback tile for out-of-range list reads. -/
def defaultTile : Tile :=
  ⟨collapseAABB3, [], []⟩

/-- `Model.createPrimitive(primitiveId, reused, modelingMatrix, color,
opacity, positions, normals, indices)` (`Model.js` lines 109–146):
builds edge indices from the raw positions, bakes non-reused positions
into world space through the modeling matrix, always transforms the
normals by the inverse of the transposed modeling matrix before
oct-encoding them into a fresh `Int8Array(normals.length)`, then registers
the primitive in the id map and appends it to the insertion-ordered list
(no duplicate-id check exists). -/
def createPrimitive (m : Model) (primitiveId : String) (reused : Bool)
    (modelingMatrix : Mat4) (color : List ℚ) (opacity : ℚ)
    (positions normals : List ℚ) (indices : List ℕ) : Model :=
  let edgeIndices := buildEdgeIndices positions indices
  let positions2 := if reused then positions else transformPositions modelingMatrix positions
  let modelNormalMatrix := inverseMat4 (transposeMat4 modelingMatrix)
  let normalsOctEncoded := transformAndOctEncodeNormals modelNormalMatrix normals
  let primitiveIndex := m.primitivesList.length
  let p : Primitive :=
    ⟨primitiveId, primitiveIndex, color, opacity, reused, positions2,
     List.replicate positions2.length 0, normalsOctEncoded, indices, edgeIndices⟩
  { m with
    primitives := jsSet m.primitives primitiveId primitiveIndex,
    primitivesList := m.primitivesList ++ [p] }

/-- The warning text `createEntity` logs for a missing primitive id
(`Model.js` line 173). -/
def missingPrimitiveMsg (pid : String) : String :=
  "primitive not found: " ++ pid

/-- The per-primitive-id loop of `createEntity` (`Model.js` lines
167–213): state is the model (instances are pushed into
`primitiveInstancesList` as they are created), the accumulated entity
AABB, the entity's own instance-index list, and the warnings logged so
far.  Unknown ids log a warning and are skipped. -/
def ceLoop (hasReused : Bool) (mmat : Mat4) :
    List String → Model → AABB → List ℕ → List String →
    Model × AABB × List ℕ × List String
  | [], m, aabb, insts, warns => (m, aabb, insts, warns)
  | pid :: rest, m, aabb, insts, warns =>
    match jsGet m.primitives pid with
    | none => ceLoop hasReused mmat rest m aabb insts (warns ++ [missingPrimitiveMsg pid])
    | some pIdx =>
      let p := m.primitivesList.getD pIdx defaultPrimitive
      let aabb2 :=
        if hasReused then expandByTransformedTriples mmat aabb p.positions
        else expandByTriples aabb p.positions
      let instIdx := m.primitiveInstancesList.length
      let m2 := { m with
        primitiveInstancesList := m.primitiveInstancesList ++ [⟨instIdx, pIdx, none⟩] }
      ceLoop hasReused mmat rest m2 aabb2 (insts ++ [instIdx]) warns

/-- `Model.createEntity(entityId, modelingMatrix, primitiveIds,
hasReusedPrimitives)` (`Model.js` lines 159–228): runs the per-id loop,
creates the entity with the collected instances and AABB, back-fills the
`entity` reference on each created instance, then registers the entity in
the id map and appends it to the insertion-ordered list (no duplicate-id
check exists).  Returns the new model together with the warnings logged. -/
def createEntity (m : Model) (entityId : String) (modelingMatrix : Mat4)
    (primitiveIds : List String) (hasReusedPrimitives : Bool) :
    Model × List String :=
  let r := ceLoop hasReusedPrimitives modelingMatrix primitiveIds m collapseAABB3 [] []
  let m1 := r.1
  let entityAABB := r.2.1
  let insts := r.2.2.1
  let warns := r.2.2.2
  let entityIndex := m1.entitiesList.length
  let ent : Entity :=
    ⟨entityId, entityIndex, modelingMatrix, insts, entityAABB, hasReusedPrimitives⟩
  let m2 := { m1 with
    primitiveInstancesList := m1.primitiveInstancesList.map
      (fun pi : PrimitiveInstance => if pi.primitiveInstanceIndex ∈ insts
                 then { pi with entityIndex := some entityIndex } else pi) }
  ({ m2 with
     entities := jsSet m2.entities entityId entityIndex,
     entitiesList := m2.entitiesList ++ [ent] }, warns)

/-! ## kd-tree spatial partitioner (`Model.js` lines 237–349) -/

/-- `KDNode.js` node: an AABB, optional children, and the entity indices
held locally (a node created by a split starts with no children and no
entities). -/
inductive KDNode where
  | mk (aabb : AABB) (left : Option KDNode) (right : Option KDNode) (entities : List ℕ)

/-- The AABB of a kd-node. -/
def KDNode.aabb : KDNode → AABB
  | .mk a _ _ _ => a

/-- The left child of a kd-node. -/
def KDNode.left : KDNode → Option KDNode
  | .mk _ l _ _ => l

/-- The right child of a kd-node. -/
def KDNode.right : KDNode → Option KDNode
  | .mk _ _ r _ => r

/-- The entity indices held locally at a kd-node. -/
def KDNode.entities : KDNode → List ℕ
  | .mk _ _ _ es => es

/-- `KD_TREE_MAX_DEPTH` (`Model.js` line 23). -/
def KD_TREE_MAX_DEPTH : ℕ := 5

/-- Length of a node AABB along axis `d` (`kdTreeDimLength`,
`Model.js` lines 295–297). -/
def dimLen (a : AABB) (d : Fin 3) : ℚ := a.hi d - a.lo d

/-- Axis selection of `_insertEntityIntoKDTree` (`Model.js` lines
299–307): start at x; move only on a strictly greater length, so ties
keep the lower axis index. -/
def kdLongestDim (a : AABB) : Fin 3 :=
  if dimLen a 0 < dimLen a 1 then
    (if dimLen a 1 < dimLen a 2 then 2 else 1)
  else
    (if dimLen a 0 < dimLen a 2 then 2 else 0)

/-- The lower half-AABB produced by splitting along `d`
(`Model.js` lines 310–311): copy the node AABB, move the `d` max to the
midpoint. -/
def halfLeft (a : AABB) (d : Fin 3) : AABB :=
  a.setHi d ((a.lo d + a.hi d) / 2)

/-- The upper half-AABB produced by splitting along `d`
(`Model.js` lines 320–321): copy the node AABB, move the `d` min to the
midpoint. -/
def halfRight (a : AABB) (d : Fin 3) : AABB :=
  a.setLo d ((a.lo d + a.hi d) / 2)

/-- A child slot after the split step: an existing child is kept, a
missing one is created around the given half-AABB. -/
def fillChild (c : Option KDNode) (half : AABB) : Option KDNode :=
  match c with
  | some n => some n
  | none => some (KDNode.mk half none none [])

/-- Recursion core of `_insertEntityIntoKDTree` (`Model.js` lines
269–333), with the remaining depth budget `maxKDTreeDepth - depth` as an
explicit structural fuel argument: the source's entry test
`depth >= maxKDTreeDepth` is exactly `fuel = 0`, and each recursive call
passes `depth + 1`, i.e. `fuel - 1`.  Control flow follows the source:
an existing child that contains the entity AABB absorbs the entity;
otherwise the longest axis is split, missing children are created with
the half-AABBs (whether or not they receive the entity), the entity
descends into a child exactly when that child's half contains its AABB,
and an entity no half contains is held locally while the node AABB is
expanded. -/
def insertGo : ℕ → KDNode → ℕ → AABB → KDNode
  | 0, .mk aabb l r es, e, ea =>
      .mk (expandAABB3 aabb ea) l r (es ++ [e])
  | Nat.succ f, .mk aabb l r es, e, ea =>
      match l, r with
      | some ln, r2 =>
        if containsAABB3 ln.aabb ea then
          .mk aabb (some (insertGo f ln e ea)) r2 es
        else
          match r2 with
          | some rn =>
            if containsAABB3 rn.aabb ea then
              .mk aabb (some ln) (some (insertGo f rn e ea)) es
            else
              .mk (expandAABB3 aabb ea) (some ln) (some rn) (es ++ [e])
          | none =>
            let d := kdLongestDim aabb
            let rh := halfRight aabb d
            if containsAABB3 rh ea then
              .mk aabb (some ln) (some (insertGo f (.mk rh none none []) e ea)) es
            else
              .mk (expandAABB3 aabb ea) (some ln) (some (.mk rh none none [])) (es ++ [e])
      | none, r2 =>
        match r2 with
        | some rn =>
          if containsAABB3 rn.aabb ea then
            .mk aabb none (some (insertGo f rn e ea)) es
          else
            let d := kdLongestDim aabb
            let lh := halfLeft aabb d
            if containsAABB3 lh ea then
              .mk aabb (some (insertGo f (.mk lh none none []) e ea)) (some rn) es
            else
              .mk (expandAABB3 aabb ea) (some (.mk lh none none [])) (some rn) (es ++ [e])
        | none =>
          let d := kdLongestDim aabb
          let lh := halfLeft aabb d
          if containsAABB3 lh ea then
            .mk aabb (some (insertGo f (.mk lh none none []) e ea)) none es
          else
            let rh := halfRight aabb d
            if containsAABB3 rh ea then
              .mk aabb (some (.mk lh none none [])) (some (insertGo f (.mk rh none none []) e ea)) es
            else
              .mk (expandAABB3 aabb ea) (some (.mk lh none none [])) (some (.mk rh none none [])) (es ++ [e])

/-- `Model._insertEntityIntoKDTree(kdNode, entity, depth, maxKDTreeDepth)`
(`Model.js` lines 269–333): insert entity index `e` with AABB `ea`. -/
def insertEntityIntoKDTree (node : KDNode) (e : ℕ) (ea : AABB)
    (depth maxKDTreeDepth : ℕ) : KDNode :=
  insertGo (maxKDTreeDepth - depth) node e ea

/-- Whether a string is a JavaScript array-index property key: the
canonical decimal form of an integer below 2³² − 1. -/
def isArrayIndexKey (s : String) : Option ℕ :=
  match s.toNat? with
  | some n => if toString n = s ∧ n < 4294967295 then some n else none
  | none => none

/-- Insertion into a list sorted by the numeric key. -/
def insertByNum (a : ℕ × String × ℕ) : List (ℕ × String × ℕ) → List (ℕ × String × ℕ)
  | [] => [a]
  | b :: bs => if a.1 ≤ b.1 then a :: b :: bs else b :: insertByNum a bs

/-- Sort by numeric key (insertion sort; the keys of an object are
distinct, so stability is irrelevant). -/
def sortByNum (l : List (ℕ × String × ℕ)) : List (ℕ × String × ℕ) :=
  l.foldr insertByNum []

/-- The JavaScript `for...in` enumeration order over an object modelled
as an association list in property-creation order: array-index keys
first in ascending numeric order, then the remaining keys in creation
order.  `_createKDTree` (`Model.js` lines 248–263) iterates
`this.entities` with `for...in`, so this order — not the insertion order
of `entitiesList` — drives the kd-tree build. -/
def forInEntries (l : List (String × ℕ)) : List (String × ℕ) :=
  let idxed := l.filterMap (fun kv => (isArrayIndexKey kv.1).map (fun n => (n, kv)))
  let rest := l.filter (fun kv => (isArrayIndexKey kv.1).isNone)
  (sortByNum idxed).map (fun t => t.2) ++ rest

/-- The order in which `_createKDTree` visits the model's entities:
the `for...in` order of the `entities` map, as entity indices. -/
def kdVisitOrder (m : Model) : List ℕ :=
  (forInEntries m.entities).map (fun kv => kv.2)

/-- The world-space AABB of the entity at index `i`. -/
def entityAabbAt (m : Model) (i : ℕ) : AABB :=
  (m.entitiesList.getD i defaultEntity).aabb

/-- `Model._createKDTree()` (`Model.js` lines 244–267): the root AABB is
the union of every entity's AABB, then every entity is inserted starting
at depth 1 with the depth cap `KD_TREE_MAX_DEPTH`; both loops run in
`for...in` order over the `entities` map. -/
def createKDTree (m : Model) : KDNode :=
  let visit := kdVisitOrder m
  let aabb := visit.foldl (fun a i => expandAABB3 a (entityAabbAt m i)) collapseAABB3
  visit.foldl
    (fun nd i => insertEntityIntoKDTree nd i (entityAabbAt m i) 1 KD_TREE_MAX_DEPTH)
    (KDNode.mk aabb none none [])

/-- `Model._createTilesFromKDNode` flattening order (`Model.js` lines
339–349): pre-order traversal collecting `(entities, aabb)` for every
node holding at least one entity. -/
def flattenKD : KDNode → List (List ℕ × AABB)
  | .mk aabb none none es =>
      if es.isEmpty then [] else [(es, aabb)]
  | .mk aabb (some ln) none es =>
      (if es.isEmpty then [] else [(es, aabb)]) ++ flattenKD ln
  | .mk aabb none (some rn) es =>
      (if es.isEmpty then [] else [(es, aabb)]) ++ flattenKD rn
  | .mk aabb (some ln) (some rn) es =>
      (if es.isEmpty then [] else [(es, aabb)]) ++ flattenKD ln ++ flattenKD rn

/-- The hard-coded AABB `_createTileFromEntities` substitutes for the
kd-node AABB it receives (`Model.js` line 366, beneath the comment
"FIXME: aabb is broken"). -/
def box1000 : AABB := ⟨-1000, -1000, -1000, 1000, 1000, 1000⟩

/-- `Model._createTileFromEntities(entities, aabb)` (`Model.js` lines
360–420): overrides the incoming kd-node AABB with the hard-coded
`[-1000..1000]³` box, quantizes the positions of every *non-reused*
primitive used by the tile's entities against that box (reused
primitives are skipped and never quantized anywhere), derives the tile
decode matrix from the same box, and appends the tile.  The centering
loop of the source is commented out and therefore absent here. -/
def createTileFromEntities (m : Model) (ents : List ℕ) (nodeAabb : AABB) : Model :=
  let aabb := box1000
  let m1 := ents.foldl
    (fun mm eIdx =>
      let ent := mm.entitiesList.getD eIdx defaultEntity
      ent.primitiveInstances.foldl
        (fun mm2 instIdx =>
          let inst := mm2.primitiveInstancesList.getD instIdx defaultInstance
          let p := mm2.primitivesList.getD inst.primitiveIndex defaultPrimitive
          let p2 := { p with positionsQuantized := quantizePositions aabb p.positions }
          if p.reused then mm2
          else { mm2 with primitivesList := mm2.primitivesList.set inst.primitiveIndex p2 })
        mm)
    m
  { m1 with tilesList :=
      m1.tilesList ++ [⟨aabb, createPositionsDecodeMatrix aabb, ents⟩] }

/-- `Model.createTiles()` (`Model.js` lines 237–242): build the kd-tree,
flatten it in pre-order, and create one tile per flattened node. -/
def createTiles (m : Model) : Model :=
  (flattenKD (createKDTree m)).foldl
    (fun mm t => createTileFromEntities mm t.1 t.2) m

/-! ## Parser for format V6 (`ParserV6`, function `load`) -/

/-- The inflated element streams the parser works on (`inflate`): 16-bit
positions, signed-8-bit normals, 32-bit indices and portions, float
matrices and decode matrices, and the JSON-decoded entity-id array. -/
structure InflatedData where
  positions : List ℕ
  normals : List ℤ
  indices : List ℕ
  edgeIndices : List ℕ
  matrices : List ℚ
  instancedPrimitivesDecodeMatrix : List ℚ
  eachPrimitivePositionsAndNormalsPortion : List ℕ
  eachPrimitiveIndicesPortion : List ℕ
  eachPrimitiveEdgeIndicesPortion : List ℕ
  eachPrimitiveColorAndOpacity : List ℕ
  primitiveInstances : List ℕ
  eachEntityId : List String
  eachEntityPrimitiveInstancesPortion : List ℕ
  eachEntityMatricesPortion : List ℕ
  eachTileAABB : List ℚ
  eachTileDecodeMatrix : List ℚ
  eachTileEntitiesPortion : List ℕ
deriving Repr

/-- The calls the parser issues against the scene-builder interface, in
order.  A mesh for an instanced primitive references a geometry by id and
carries the entity matrix; a mesh for a single-use primitive carries the
inline arrays, the tile decode matrix, and inline color and opacity, and
carries no matrix (`load`, lines 187–229). -/
inductive Call where
  | createGeometry (id : String) (positions : List ℕ) (normals : List ℤ)
      (indices edgeIndices : List ℕ) (positionsDecodeMatrix : List ℚ)
  | createMeshInstanced (id : ℕ) (geometryId : String) (matrix : List ℚ)
  | createMeshInline (id : ℕ) (positions : List ℕ) (normals : List ℤ)
      (indices edgeIndices : List ℕ) (positionsDecodeMatrix : List ℚ)
      (color : List ℚ) (opacity : ℚ)
  | createSceneEntity (id : String) (isObject : Bool) (meshIds : List ℕ)
deriving DecidableEq, Repr

/-- The parser's mutable state: the geometry-dedupe set
(`geometryCreated`) and the sequential mesh-id counter (`nextMeshId`). -/
structure PState where
  geometryCreated : List String
  nextMeshId : ℕ
deriving DecidableEq, Repr

/-- The `subarray(a, b)` view of a typed array (clamping, empty when
`b ≤ a`). -/
def sliceArr {α : Type} (xs : List α) (a b : ℕ) : List α :=
  (xs.take b).drop a

/-- `numPrimitives` (`load` line 112). -/
def numPrimitives (data : InflatedData) : ℕ :=
  data.eachPrimitivePositionsAndNormalsPortion.length

/-- The instance histogram (`load` lines 122–127): occurrences of a
primitive index in the `primitiveInstances` stream; an out-of-range
index reads as 0, as the JavaScript `Uint32Array` histogram would yield
`undefined` for it. -/
def instanceCountOf (data : InflatedData) (p : ℕ) : ℕ :=
  if p < numPrimitives data then data.primitiveInstances.count p else 0

/-- The geometry id the parser derives from a primitive index
(`load` line 191). -/
def geometryIdOf (p : ℕ) : String := "geometry" ++ toString p

/-- `decompressColor` (`load` lines 76–84). -/
def decompressColor (c : List ℕ) : List ℚ :=
  [(c.getD 0 0 : ℚ) / 255, (c.getD 1 0 : ℚ) / 255, (c.getD 2 0 : ℚ) / 255]

/-- The positions slice of a primitive (`load` line 175): from its
portion entry up to the next primitive's entry, or to the stream's end
for the last primitive. -/
def primPositionsSlice (data : InflatedData) (p : ℕ) : List ℕ :=
  let portion := data.eachPrimitivePositionsAndNormalsPortion
  let e := if p = numPrimitives data - 1 then data.positions.length else portion.getD (p + 1) 0
  sliceArr data.positions (portion.getD p 0) e

/-- The normals slice of a primitive (`load` line 176); it shares the
positions portion array, so normals occupy three stream elements per
vertex, like positions. -/
def primNormalsSlice (data : InflatedData) (p : ℕ) : List ℤ :=
  let portion := data.eachPrimitivePositionsAndNormalsPortion
  let e := if p = numPrimitives data - 1 then data.normals.length else portion.getD (p + 1) 0
  sliceArr data.normals (portion.getD p 0) e

/-- The indices slice of a primitive (`load` line 177). -/
def primIndicesSlice (data : InflatedData) (p : ℕ) : List ℕ :=
  let portion := data.eachPrimitiveIndicesPortion
  let e := if p = numPrimitives data - 1 then data.indices.length else portion.getD (p + 1) 0
  sliceArr data.indices (portion.getD p 0) e

/-- The edge-indices slice of a primitive (`load` line 178). -/
def primEdgeIndicesSlice (data : InflatedData) (p : ℕ) : List ℕ :=
  let portion := data.eachPrimitiveEdgeIndicesPortion
  let e := if p = numPrimitives data - 1 then data.edgeIndices.length else portion.getD (p + 1) 0
  sliceArr data.edgeIndices (portion.getD p 0) e

/-- The inline color of a primitive (`load` line 180). -/
def primColor (data : InflatedData) (p : ℕ) : List ℚ :=
  decompressColor (sliceArr data.eachPrimitiveColorAndOpacity (p * 4) (p * 4 + 3))

/-- The inline opacity of a primitive (`load` line 181). -/
def primOpacity (data : InflatedData) (p : ℕ) : ℚ :=
  (data.eachPrimitiveColorAndOpacity.getD (p * 4 + 3) 0 : ℚ) / 255

/-- The body of the instance loop (`load` lines 167–232): decide by the
instance histogram whether the referenced primitive is instanced; for an
instanced primitive materialise its geometry once (dedupe through
`geometryCreated`) with the global instanced decode matrix and emit a
mesh referencing it with the entity matrix; otherwise emit a
self-contained mesh with the inline slices, the tile decode matrix, and
inline color and opacity.  Returns the new state and the calls emitted. -/
def processInstance (data : InflatedData) (tileDecodeMatrix entityMatrix : List ℚ)
    (instanceIdx : ℕ) (s : PState) : PState × List Call :=
  let p := data.primitiveInstances.getD instanceIdx 0
  let isInstancedPrimitive := 1 < instanceCountOf data p
  let meshId := s.nextMeshId
  if isInstancedPrimitive then
    if geometryIdOf p ∈ s.geometryCreated then
      ({ s with nextMeshId := meshId + 1 },
       [Call.createMeshInstanced meshId (geometryIdOf p) entityMatrix])
    else
      ({ geometryCreated := geometryIdOf p :: s.geometryCreated, nextMeshId := meshId + 1 },
       [Call.createGeometry (geometryIdOf p) (primPositionsSlice data p)
          (primNormalsSlice data p) (primIndicesSlice data p) (primEdgeIndicesSlice data p)
          data.instancedPrimitivesDecodeMatrix,
        Call.createMeshInstanced meshId (geometryIdOf p) entityMatrix])
  else
    ({ s with nextMeshId := meshId + 1 },
     [Call.createMeshInline meshId (primPositionsSlice data p) (primNormalsSlice data p)
        (primIndicesSlice data p) (primEdgeIndicesSlice data p) tileDecodeMatrix
        (primColor data p) (primOpacity data p)])

/-- The instance loop of one entity: threads the state, concatenates the
emitted calls, and records the mesh id allocated for each instance
(`meshIds.push(meshId)`, `load` line 231). -/
def runInstances (data : InflatedData) (tileDecodeMatrix entityMatrix : List ℚ) :
    List ℕ → PState → PState × List Call × List ℕ
  | [], s => (s, [], [])
  | i :: is, s =>
    let r1 := processInstance data tileDecodeMatrix entityMatrix i s
    let mid := s.nextMeshId
    let r2 := runInstances data tileDecodeMatrix entityMatrix is r1.1
    (r2.1, r1.2 ++ r2.2.1, mid :: r2.2.2)

/-- The instance index range of the entity at (tile-ordered) index `i`:
from its portion entry up to the next entity's entry, or to the length
of the instances stream for the last entity (`load` lines 158–161). -/
def entityInstanceRange (data : InflatedData) (i : ℕ) : ℕ × ℕ :=
  let first := data.eachEntityPrimitiveInstancesPortion.getD i 0
  let last := if i = data.eachEntityId.length - 1
    then data.primitiveInstances.length
    else data.eachEntityPrimitiveInstancesPortion.getD (i + 1) 0
  (first, last)

/-- The entity matrix: a 16-float slice of the matrices stream starting
at the entity's matrices-portion entry (`load` lines 155–156). -/
def entityMatrixOf (data : InflatedData) (i : ℕ) : List ℚ :=
  let mi := data.eachEntityMatricesPortion.getD i 0
  sliceArr data.matrices mi (mi + 16)

/-- The body of the entity loop (`load` lines 151–244): run all the
entity's instances, then issue `createEntity` with the collected mesh ids
exactly when at least one mesh was created (`meshIds.length > 0`). -/
def processEntity (data : InflatedData) (tileDecodeMatrix : List ℚ)
    (tileEntityIndex : ℕ) (s : PState) : PState × List Call :=
  let entityId := data.eachEntityId.getD tileEntityIndex ""
  let entityMatrix := entityMatrixOf data tileEntityIndex
  let range := entityInstanceRange data tileEntityIndex
  let r := runInstances data tileDecodeMatrix entityMatrix
    (List.range' range.1 (range.2 - range.1)) s
  let meshIds := r.2.2
  if meshIds.isEmpty then (r.1, r.2.1)
  else (r.1, r.2.1 ++ [Call.createSceneEntity entityId true meshIds])

/-- The entity loop over one tile's entity range. -/
def runEntities (data : InflatedData) (tileDecodeMatrix : List ℚ) :
    List ℕ → PState → PState × List Call
  | [], s => (s, [])
  | i :: is, s =>
    let r1 := processEntity data tileDecodeMatrix i s
    let r2 := runEntities data tileDecodeMatrix is r1.1
    (r2.1, r1.2 ++ r2.2)

/-- The body of the tile loop (`load` lines 131–245): the tile's entity
range comes from `eachTileEntitiesPortion` (to the entity count for the
last tile) and its decode matrix is a 16-float slice of
`eachTileDecodeMatrix`. -/
def processTile (data : InflatedData) (tileIndex : ℕ) (s : PState) : PState × List Call :=
  let numTiles := data.eachTileEntitiesPortion.length
  let first := data.eachTileEntitiesPortion.getD tileIndex 0
  let last := if tileIndex = numTiles - 1
    then data.eachEntityId.length
    else data.eachTileEntitiesPortion.getD (tileIndex + 1) 0
  let tileDecodeMatrix := sliceArr data.eachTileDecodeMatrix (tileIndex * 16) (tileIndex * 16 + 16)
  runEntities data tileDecodeMatrix (List.range' first (last - first)) s

/-- The tile loop. -/
def runTiles (data : InflatedData) : List ℕ → PState → PState × List Call
  | [], s => (s, [])
  | i :: is, s =>
    let r1 := processTile data i s
    let r2 := runTiles data is r1.1
    (r2.1, r1.2 ++ r2.2)

/-- `load(viewer, options, inflatedData, performanceModel)` of the V6
parser, as the sequence of scene-builder calls it issues: iterate the
tiles in order starting from an empty dedupe set and mesh id 0. -/
def loadV6 (data : InflatedData) : List Call :=
  (runTiles data (List.range data.eachTileEntitiesPortion.length) ⟨[], 0⟩).2

/-! ## Spec-side definitions (for comparison against the embedded code) -/

/-- Oct pairs of raw, untransformed normal triples. -/
def specOctPairsRaw : List ℚ → List ℤ
  | x :: y :: z :: rest => octEncodeVec3 (x, y, z) ++ specOctPairsRaw rest
  | _ => []

/-- Stated from the spec's words: the oct-encoding prescribed for a
reused primitive — "for reused primitives, normals stay in object space"
— i.e. each raw normal oct-encoded with no transform, laid out in the
same one-slot-per-component array as the code uses. -/
def specOctObjectSpace (normals : List ℚ) : List ℤ :=
  let pairs := specOctPairsRaw normals
  pairs ++ List.replicate (normals.length - pairs.length) 0

/-- Stated from the spec's words: "the union AABB of all object-space
positions of reused primitives", against which the spec says reused
primitives are quantized and from which
`instanced_primitives_decode_matrix` is said to be derived. -/
def specReusedUnionAABB (m : Model) : AABB :=
  m.primitivesList.foldl
    (fun a p => if p.reused then expandByTriples a p.positions else a) collapseAABB3

/-! ## Concrete example models used by the closed theorems -/

/-- One non-reused primitive spanning `[1500,1600]³`, one entity using it. -/
def exC1model : Model :=
  (createEntity
    (createPrimitive emptyModel "p0" false identityMat4 [1, 0, 0] 1
      [1500, 1500, 1500, 1600, 1600, 1600] [0, 0, 0, 0, 0, 0] [])
    "e0" identityMat4 ["p0"] false).1

/-- A model already containing a primitive with id `"a"`. -/
def exC3primBase : Model :=
  createPrimitive emptyModel "a" false identityMat4 [1, 0, 0] 1 [0, 0, 0] [0, 0, 0] []

/-- A model already containing an entity with id `"e"`. -/
def exC3entBase : Model :=
  (createEntity exC3primBase "e" identityMat4 ["a"] false).1

/-- A modeling matrix with a non-uniform scale (column-major
`diag(2, 1, 1, 1)`), under which a transformed normal changes direction. -/
def exC4matrix : Mat4 :=
  [2, 0, 0, 0, 0, 1, 0, 0, 0, 0, 1, 0, 0, 0, 0, 1]

/-- A reused primitive created with the non-uniform-scale matrix and the
normal `(1, 1, 0)`. -/
def exC4prim : Primitive :=
  (createPrimitive emptyModel "pn" true exC4matrix [1, 0, 0] 1
    [0, 0, 0] [1, 1, 0] []).primitivesList.getD 0 defaultPrimitive

/-- One reused primitive with positions spanning `[0,0,0]`–`[10,20,30]`,
shared by two entities. -/
def exC5model : Model :=
  (createEntity
    (createEntity
      (createPrimitive emptyModel "p" true identityMat4 [1, 0, 0] 1
        [0, 0, 0, 10, 20, 30] [0, 0, 0, 0, 0, 0] [])
      "eA" identityMat4 ["p"] true).1
    "eB" identityMat4 ["p"] true).1

/-- The kd-node AABB the first (only) flattened node of `exC1model`
carries. -/
def exC1nodeAabb : AABB := ⟨1500, 1500, 1500, 1600, 1600, 1600⟩

/-- Shorthand for the only tile `createTiles` makes for `exC1model`. -/
def exC1tile : Tile := (createTiles exC1model).tilesList.getD 0 defaultTile

/-- Shorthand for the only primitive of `exC5model` after `createTiles`. -/
def exC5prim : Primitive :=
  (createTiles exC5model).primitivesList.getD 0 defaultPrimitive

/-- The primitive a `createPrimitive` call appends: it lands at index
`m.primitivesList.length` of the extended list. -/
def newPrimOf (m : Model) (pid : String) (reused : Bool) (mmat : Mat4)
    (color : List ℚ) (opacity : ℚ) (positions normals : List ℚ)
    (indices : List ℕ) : Primitive :=
  (createPrimitive m pid reused mmat color opacity positions normals
      indices).primitivesList.getD m.primitivesList.length defaultPrimitive

/-- A primitive with three vertices (so `positions` and `normals` have
nine components each), used against the claimed 2-per-vertex layout. -/
def exC2prim : Primitive :=
  newPrimOf emptyModel "pc" false identityMat4 [1, 0, 0] 1
    [0, 0, 0, 1, 0, 0, 0, 1, 0] [0, 0, 1, 0, 0, 1, 0, 0, 1] [0, 1, 2]

/-- Whether a parser call is a mesh materialisation (instanced or inline). -/
def isMeshCall : Call → Bool
  | .createMeshInstanced .. => true
  | .createMeshInline .. => true
  | _ => false

/-- Whether a parser call is a scene-entity creation. -/
def isEntityCall : Call → Bool
  | .createSceneEntity .. => true
  | _ => false

/-- Whether a parser call is a geometry creation. -/
def isGeometryCall : Call → Bool
  | .createGeometry .. => true
  | _ => false

/-- The geometry id of a `createGeometry` call. -/
def geomCallId : Call → Option String
  | .createGeometry gid _ _ _ _ _ => some gid
  | _ => none

/-- The positions-decode matrix of a `createGeometry` call. -/
def geomCallPDM : Call → Option (List ℚ)
  | .createGeometry _ _ _ _ _ pdm => some pdm
  | _ => none

/-- How many `createGeometry` calls with a given geometry id a call list
contains. -/
def countGeom (calls : List Call) (g : String) : ℕ :=
  (calls.filter (fun c => geomCallId c = some g)).length

/-- Invariant of a parser phase running from state `s` to state `s2`
while emitting `c`: the dedupe set only grows, a geometry already in the
dedupe set is never re-created, any geometry is created at most once and
is recorded in the dedupe set when created, and every geometry call
carries the global instanced decode matrix. -/
def GProps (data : InflatedData) (g : String) (s s2 : PState) (c : List Call) : Prop :=
  (g ∈ s.geometryCreated → g ∈ s2.geometryCreated)
  ∧ (g ∈ s.geometryCreated → countGeom c g = 0)
  ∧ countGeom c g ≤ 1
  ∧ (countGeom c g = 1 → g ∈ s2.geometryCreated)
  ∧ (∀ call ∈ c, isGeometryCall call = true →
      geomCallPDM call = some data.instancedPrimitivesDecodeMatrix)

/-- A model with two entities whose ids are the array-index strings
`"10"` and `"2"`, created in that order. -/
def exC10model : Model :=
  (createEntity
    (createEntity
      (createPrimitive emptyModel "p" false identityMat4 [1, 0, 0] 1
        [0, 0, 0] [0, 0, 0] [])
      "10" identityMat4 ["p"] false).1
    "2" identityMat4 ["p"] false).1

/-- A model with two entities whose ids are not array-index strings. -/
def exC10clean : Model :=
  (createEntity
    (createEntity
      (createPrimitive emptyModel "p" false identityMat4 [1, 0, 0] 1
        [0, 0, 0] [0, 0, 0] [])
      "ea" identityMat4 ["p"] false).1
    "eb" identityMat4 ["p"] false).1

/-- A small wire image: one primitive instanced by two entities in one
tile. -/
def exData : InflatedData where
  positions := [0, 0, 0, 65535, 65535, 65535]
  normals := [0, 0, 0, 0, 0, 0]
  indices := [0]
  edgeIndices := [0, 0]
  matrices := [1, 0, 0, 0, 0, 1, 0, 0, 0, 0, 1, 0, 0, 0, 0, 1]
  instancedPrimitivesDecodeMatrix := [1, 0, 0, 0, 0, 1, 0, 0, 0, 0, 1, 0, 0, 0, 0, 1]
  eachPrimitivePositionsAndNormalsPortion := [0]
  eachPrimitiveIndicesPortion := [0]
  eachPrimitiveEdgeIndicesPortion := [0]
  eachPrimitiveColorAndOpacity := [255, 0, 0, 255]
  primitiveInstances := [0, 0]
  eachEntityId := ["A", "B"]
  eachEntityPrimitiveInstancesPortion := [0, 1]
  eachEntityMatricesPortion := [0, 0]
  eachTileAABB := [0, 0, 0, 1, 1, 1]
  eachTileDecodeMatrix := [1, 0, 0, 0, 0, 1, 0, 0, 0, 0, 1, 0, 0, 0, 0, 1]
  eachTileEntitiesPortion := [0]

/-! ## Theorems settling the claims -/

set_option maxRecDepth 100000

/-- C1 (code bug): the claim states that every tile's `aabb` equals the
flattened kd-node's `aabb`, that the decode matrix is derived from that
same AABB, and that every entity in a tile is contained in the tile's
AABB.  The source instead overwrites the node AABB with the hard-coded
`[-1000,1000]³` box (`Model.js` line 366, under "FIXME: aabb is broken"),
so on a model whose single entity spans `[1500,1600]³` the only kd-node
has AABB `[1500,1600]³`, yet the tile created from it carries `box1000`,
its decode matrix is derived from `box1000` and not from the node AABB,
and the tile's entity is not contained in the tile's AABB. -/
theorem c1_tile_aabb_code_bug :
    (flattenKD (createKDTree exC1model)).map (fun t => t.2) = [exC1nodeAabb]
    ∧ (createTiles exC1model).tilesList.length = 1
    ∧ exC1tile.aabb = box1000
    ∧ exC1tile.aabb ≠ exC1nodeAabb
    ∧ exC1tile.entities = [0]
    ∧ containsAABB3 exC1tile.aabb (entityAabbAt exC1model 0) = false
    ∧ exC1tile.decodeMatrix = createPositionsDecodeMatrix box1000
    ∧ exC1tile.decodeMatrix ≠ createPositionsDecodeMatrix exC1nodeAabb :=
  ⟨by with_unfolding_all decide, by with_unfolding_all decide, by with_unfolding_all decide,
   by with_unfolding_all decide, by with_unfolding_all decide, by with_unfolding_all decide,
   by with_unfolding_all rfl, by with_unfolding_all decide⟩

/-- C3 (corrected): the claim states that `createPrimitive` and
`createEntity` fail on a duplicate id (`DuplicatePrimitive` /
`DuplicateEntity`) leaving the model unchanged.  The source has no
duplicate check at all: repeating id `"a"` (resp. `"e"`) succeeds,
appends a second object to the insertion-ordered list — so the model
does change — and rebinds the id in the map to the new index. -/
theorem c3_counterexample :
    (createPrimitive exC3primBase "a" false identityMat4 [1, 0, 0] 1
        [0, 0, 0] [0, 0, 0] []).primitivesList.length = 2
    ∧ createPrimitive exC3primBase "a" false identityMat4 [1, 0, 0] 1
        [0, 0, 0] [0, 0, 0] [] ≠ exC3primBase
    ∧ jsGet (createPrimitive exC3primBase "a" false identityMat4 [1, 0, 0] 1
        [0, 0, 0] [0, 0, 0] []).primitives "a" = some 1
    ∧ (createEntity exC3entBase "e" identityMat4 ["a"] false).1.entitiesList.length = 2
    ∧ (createEntity exC3entBase "e" identityMat4 ["a"] false).1 ≠ exC3entBase
    ∧ jsGet (createEntity exC3entBase "e" identityMat4 ["a"] false).1.entities "e"
        = some 1 :=
  ⟨by with_unfolding_all decide, by with_unfolding_all decide, by with_unfolding_all decide,
   by with_unfolding_all decide, by with_unfolding_all decide, by with_unfolding_all decide⟩

/-- C4 (corrected), counterexample: the claim states that for
`reused = true` the normals are oct-encoded untransformed.  The source
computes the inverse-transposed modeling matrix and transforms the
normals unconditionally (`Model.js` lines 133–136), so a reused
primitive created with the non-uniform scale `diag(2,1,1)` and normal
`(1,1,0)` stores the oct pair of the transformed direction
`(1/2, 1, 0)`, namely `(42, 85)`, not the object-space pair `(64, 64)`
the spec prescribes. -/
theorem c4_counterexample :
    exC4prim.reused = true
    ∧ exC4prim.normalsOctEncoded = [42, 85, 0]
    ∧ specOctObjectSpace [1, 1, 0] = [64, 64, 0]
    ∧ exC4prim.normalsOctEncoded ≠ specOctObjectSpace [1, 1, 0] :=
  ⟨by with_unfolding_all decide, by with_unfolding_all decide,
   by with_unfolding_all decide, by with_unfolding_all decide⟩

/-- C5 (code bug): the claim states that after `createTiles` every
reused primitive's `positionsQuantized` is populated against the union
AABB of reused-primitive positions and that
`instancedPrimitivesDecodeMatrix` is derived from that AABB.
`_createTileFromEntities` skips every reused primitive
(`Model.js` line 383: quantization only runs under `!primitive.reused`)
and nothing in the class ever writes `instancedPrimitivesDecodeMatrix`
after its zero-filled construction, so on a model with one reused
primitive spanning `[0,0,0]`–`[10,20,30]` shared by two entities the
quantized positions stay all-zero instead of the spec's
`[0,0,0,65535,65535,65535]`, and the decode matrix stays the zero matrix
instead of being derived from the union AABB. -/
theorem c5_reused_quantization_code_bug :
    exC5prim.reused = true
    ∧ (createTiles exC5model).tilesList.length = 1
    ∧ exC5prim.positionsQuantized = [0, 0, 0, 0, 0, 0]
    ∧ specReusedUnionAABB (createTiles exC5model) = ⟨0, 0, 0, 10, 20, 30⟩
    ∧ quantizePositions (specReusedUnionAABB (createTiles exC5model)) exC5prim.positions
        = [0, 0, 0, 65535, 65535, 65535]
    ∧ exC5prim.positionsQuantized
        ≠ quantizePositions (specReusedUnionAABB (createTiles exC5model)) exC5prim.positions
    ∧ (createTiles exC5model).instancedPrimitivesDecodeMatrix = mat4Zero
    ∧ (createTiles exC5model).instancedPrimitivesDecodeMatrix
        ≠ createPositionsDecodeMatrix (specReusedUnionAABB (createTiles exC5model)) :=
  ⟨by with_unfolding_all decide, by with_unfolding_all decide, by with_unfolding_all decide,
   by with_unfolding_all decide, by with_unfolding_all decide, by with_unfolding_all decide,
   by with_unfolding_all decide, by with_unfolding_all decide⟩

/-! ### Helper lemmas shared by several claims -/

/-- Reading the slot just past a list, after appending one element,
yields that element. -/
theorem getD_append_length {α : Type} (l : List α) (x d : α) :
    (l ++ [x]).getD l.length d = x := by
  induction l with
  | nil => rfl
  | cons a t ih => simp [ih]

/-- Unfolding of the primitive appended by `createPrimitive`. -/
theorem newPrimOf_eq (m : Model) (pid : String) (reused : Bool) (mmat : Mat4)
    (color : List ℚ) (opacity : ℚ) (positions normals : List ℚ) (indices : List ℕ) :
    newPrimOf m pid reused mmat color opacity positions normals indices =
      ⟨pid, m.primitivesList.length, color, opacity, reused,
       (if reused then positions else transformPositions mmat positions),
       List.replicate (if reused then positions
                       else transformPositions mmat positions).length 0,
       transformAndOctEncodeNormals (inverseMat4 (transposeMat4 mmat)) normals,
       indices, buildEdgeIndices positions indices⟩ := by
  simp [newPrimOf, createPrimitive, getD_append_length]

/-- Transforming positions in place preserves the array length. -/
theorem transformPositions_length (m : Mat4) : ∀ ps : List ℚ,
    (transformPositions m ps).length = ps.length
  | _ :: _ :: _ :: rest => by
      simp [transformPositions, transformPositions_length m rest]
  | [] => rfl
  | [_] => rfl
  | [_, _] => rfl

/-- An oct-encoded vector is one pair. -/
theorem octEncodeVec3_length (p : ℚ × ℚ × ℚ) : (octEncodeVec3 p).length = 2 := rfl

/-- The oct-pair stream is never longer than the normal stream. -/
theorem octPairs_length_le (m : Mat4) : ∀ l : List ℚ,
    (octPairs m l).length ≤ l.length
  | _ :: _ :: _ :: rest => by
      have ih := octPairs_length_le m rest
      simp only [octPairs, List.length_append, List.length_cons, octEncodeVec3_length]
      omega
  | [] => by simp [octPairs]
  | [_] => by simp [octPairs]
  | [_, _] => by simp [octPairs]

/-- The oct-encoded array has exactly one slot per input component, as
allocated by `new Int8Array(normals.length)`. -/
theorem transformAndOctEncodeNormals_length (m : Mat4) (l : List ℚ) :
    (transformAndOctEncodeNormals m l).length = l.length := by
  have h := octPairs_length_le m l
  simp only [transformAndOctEncodeNormals, List.length_append, List.length_replicate]
  omega

/-- The embedded absolute value agrees with Mathlib's. -/
theorem qabs_eq_abs (a : ℚ) : qabs a = |a| := by
  unfold qabs
  split
  · exact (abs_of_neg (by assumption)).symm
  · exact (abs_of_nonneg (not_lt.mp (by assumption))).symm

/-- A coordinate divided by a dominating denominator has magnitude at
most one (with the rational convention that division by zero is zero). -/
theorem l1div_le_one (t s : ℚ) (h : |t| ≤ s) : |t / s| ≤ 1 := by
  rcases eq_or_ne s 0 with rfl | hs
  · simp
  · have hs0 : 0 < s := lt_of_le_of_ne (le_trans (abs_nonneg t) h) (Ne.symm hs)
    rw [abs_div, abs_of_pos hs0, div_le_one hs0]
    exact h

/-- Ties-away-from-zero rounding keeps magnitudes at most 127 for inputs
of magnitude at most 127. -/
theorem roundAway_bound (q : ℚ) (h : |q| ≤ 127) :
    -127 ≤ roundAway q ∧ roundAway q ≤ 127 := by
  have habs := abs_le.mp h
  unfold roundAway
  split
  · have hnn : (0 : ℤ) ≤ ⌊q + 1 / 2⌋ := by
      apply Int.le_floor.mpr
      push_cast
      linarith
    have hup : ⌊q + 1 / 2⌋ < 128 := by
      apply Int.floor_lt.mpr
      push_cast
      linarith
    omega
  · have hneg : q < 0 := not_le.mp (by assumption)
    have hnn : (0 : ℤ) ≤ ⌊-q + 1 / 2⌋ := by
      apply Int.le_floor.mpr
      push_cast
      linarith
    have hup : ⌊-q + 1 / 2⌋ < 128 := by
      apply Int.floor_lt.mpr
      push_cast
      linarith
    omega

/-- The folded coordinate of the octahedral projection stays within one. -/
theorem fold_bound (t u : ℚ) (h : |t| ≤ 1) : |(1 - qabs t) * octSign u| ≤ 1 := by
  have hsg : |octSign u| = 1 := by
    unfold octSign
    split <;> simp
  rw [abs_mul, hsg, mul_one, qabs_eq_abs,
    abs_of_nonneg (by linarith [abs_nonneg t] : (0 : ℚ) ≤ 1 - |t|)]
  linarith [abs_nonneg t]

/-- Scaling a coordinate of magnitude at most one by 127 and rounding
stays in the signed-8-bit oct range. -/
theorem roundAway_mul127 (t : ℚ) (h : |t| ≤ 1) :
    -127 ≤ roundAway (t * 127) ∧ roundAway (t * 127) ≤ 127 := by
  apply roundAway_bound
  rw [abs_mul, abs_of_nonneg (by norm_num : (0 : ℚ) ≤ 127)]
  nlinarith [abs_nonneg t]

/-- Every component of an oct-encoded pair lies in `−127..127`. -/
theorem octEncodeVec3_bounds (p : ℚ × ℚ × ℚ) :
    ∀ x ∈ octEncodeVec3 p, -127 ≤ x ∧ x ≤ 127 := by
  obtain ⟨a, b, c⟩ := p
  have habc : ∀ t : ℚ, |t| ≤ |a| + |b| + |c| →
      |t / (qabs a + qabs b + qabs c)| ≤ 1 := by
    intro t ht
    rw [qabs_eq_abs, qabs_eq_abs, qabs_eq_abs]
    exact l1div_le_one t _ ht
  have hu : |a / (qabs a + qabs b + qabs c)| ≤ 1 :=
    habc a (by linarith [abs_nonneg b, abs_nonneg c, le_refl |a|])
  have hv : |b / (qabs a + qabs b + qabs c)| ≤ 1 :=
    habc b (by linarith [abs_nonneg a, abs_nonneg c, le_refl |b|])
  intro x hx
  simp only [octEncodeVec3, List.mem_cons, List.not_mem_nil, or_false] at hx
  rcases hx with rfl | rfl
  · by_cases hc : c < 0
    · simp only [if_pos hc]
      exact roundAway_mul127 _ (fold_bound _ _ hv)
    · simp only [if_neg hc]
      exact roundAway_mul127 _ hu
  · by_cases hc : c < 0
    · simp only [if_pos hc]
      exact roundAway_mul127 _ (fold_bound _ _ hu)
    · simp only [if_neg hc]
      exact roundAway_mul127 _ hv

/-- Every component of the oct-pair stream lies in `−127..127`. -/
theorem octPairs_bounds (m : Mat4) : ∀ l : List ℚ, ∀ x ∈ octPairs m l,
    -127 ≤ x ∧ x ≤ 127
  | _ :: _ :: _ :: rest => by
      intro t ht
      simp only [octPairs, List.mem_append] at ht
      rcases ht with h | h
      · exact octEncodeVec3_bounds _ t h
      · exact octPairs_bounds m rest t h
  | [] => by intro t ht; simp [octPairs] at ht
  | [_] => by intro t ht; simp [octPairs] at ht
  | [_, _] => by intro t ht; simp [octPairs] at ht

/-- Every entry of the encoded normal array (pairs and zero padding
alike) lies in `−127..127`. -/
theorem transformAndOctEncodeNormals_bounds (m : Mat4) (l : List ℚ) :
    ∀ x ∈ transformAndOctEncodeNormals m l, -127 ≤ x ∧ x ≤ 127 := by
  intro x hx
  simp only [transformAndOctEncodeNormals, List.mem_append] at hx
  rcases hx with h | h
  · exact octPairs_bounds m l x h
  · rw [List.eq_of_mem_replicate h]
    exact ⟨by norm_num, by norm_num⟩

/-- C2 (corrected), counterexample: the claim states that
`normalsOctEncoded` has 2/3 the length of `positions` (one signed-8-bit
pair per vertex).  The source allocates `new Int8Array(normals.length)`
(`Model.js` line 134), so for a primitive with three vertices the array
has nine entries, not six: `3 × 9 ≠ 2 × 9`. -/
theorem c2_counterexample :
    exC2prim.positions.length = 9
    ∧ exC2prim.normalsOctEncoded.length = 9
    ∧ ¬ (3 * exC2prim.normalsOctEncoded.length = 2 * exC2prim.positions.length) :=
  ⟨by with_unfolding_all decide, by with_unfolding_all decide,
   by with_unfolding_all decide⟩

/-- C2 (corrected), amended claim: for every primitive built by
`createPrimitive` (with normals and positions of equal length, the
input invariant), `normalsOctEncoded` has the *same* length as
`positions` — one signed-8-bit slot per component, the oct pairs at the
front and zero padding behind — and every entry lies in `−127..127`. -/
theorem c2_amended (m : Model) (pid : String) (reused : Bool) (mmat : Mat4)
    (color : List ℚ) (opacity : ℚ) (positions normals : List ℚ) (indices : List ℕ)
    (h : normals.length = positions.length) :
    (newPrimOf m pid reused mmat color opacity positions normals
        indices).normalsOctEncoded.length
      = (newPrimOf m pid reused mmat color opacity positions normals
          indices).positions.length
    ∧ ∀ x ∈ (newPrimOf m pid reused mmat color opacity positions normals
        indices).normalsOctEncoded, -127 ≤ x ∧ x ≤ 127 := by
  rw [newPrimOf_eq]
  constructor
  · cases reused <;>
      simp [transformAndOctEncodeNormals_length, transformPositions_length, h]
  · intro x hx
    exact transformAndOctEncodeNormals_bounds _ _ x hx

/-- Witness for `c2_amended` at a one-vertex primitive. -/
theorem c2_amended_witness :
    ([(0 : ℚ), 0, 1].length = [(0 : ℚ), 0, 0].length)
    ∧ ((newPrimOf emptyModel "w" false identityMat4 [1, 0, 0] 1 [0, 0, 0]
          [0, 0, 1] []).normalsOctEncoded.length
        = (newPrimOf emptyModel "w" false identityMat4 [1, 0, 0] 1 [0, 0, 0]
            [0, 0, 1] []).positions.length
      ∧ ∀ x ∈ (newPrimOf emptyModel "w" false identityMat4 [1, 0, 0] 1 [0, 0, 0]
          [0, 0, 1] []).normalsOctEncoded, -127 ≤ x ∧ x ≤ 127) :=
  ⟨rfl, c2_amended emptyModel "w" false identityMat4 [1, 0, 0] 1 [0, 0, 0]
    [0, 0, 1] [] rfl⟩

/-- C4 (corrected), amended claim: `createPrimitive` transforms the
normals by the inverse of the transposed modeling matrix before
oct-encoding them *unconditionally* — the stored array equals the
transform-then-encode of the input normals for every value of `reused`,
and in particular the stored normals do not depend on the `reused` flag
at all.  (Spec §9 Q2 acknowledges this: the transform also runs when
`reused = true`.) -/
theorem c4_amended (m : Model) (pid : String) (reused : Bool) (mmat : Mat4)
    (color : List ℚ) (opacity : ℚ) (positions normals : List ℚ) (indices : List ℕ) :
    (newPrimOf m pid reused mmat color opacity positions normals
        indices).normalsOctEncoded
      = transformAndOctEncodeNormals (inverseMat4 (transposeMat4 mmat)) normals
    ∧ (newPrimOf m pid true mmat color opacity positions normals
        indices).normalsOctEncoded
      = (newPrimOf m pid false mmat color opacity positions normals
          indices).normalsOctEncoded := by
  simp [newPrimOf_eq]

/-- Looking up the key just written by a JavaScript property assignment
yields the written value. -/
theorem jsGet_jsSet (l : List (String × ℕ)) (k : String) (v : ℕ) :
    jsGet (jsSet l k v) k = some v := by
  induction l with
  | nil => simp [jsSet, jsGet]
  | cons kv rest ih =>
      by_cases hk : kv.1 = k
      · simp [jsSet, hk, jsGet]
      · simp [jsSet, hk, jsGet, ih]

/-- The `createEntity` per-id loop never touches the primitive
containers, the entity containers, the tiles, or the global decode
matrix. -/
theorem ceLoop_fields (hasReused : Bool) (mmat : Mat4) : ∀ (pids : List String)
    (m : Model) (aabb : AABB) (insts : List ℕ) (warns : List String),
    (ceLoop hasReused mmat pids m aabb insts warns).1.primitives = m.primitives
    ∧ (ceLoop hasReused mmat pids m aabb insts warns).1.primitivesList = m.primitivesList
    ∧ (ceLoop hasReused mmat pids m aabb insts warns).1.entities = m.entities
    ∧ (ceLoop hasReused mmat pids m aabb insts warns).1.entitiesList = m.entitiesList
    ∧ (ceLoop hasReused mmat pids m aabb insts warns).1.tilesList = m.tilesList
    ∧ (ceLoop hasReused mmat pids m aabb insts
        warns).1.instancedPrimitivesDecodeMatrix = m.instancedPrimitivesDecodeMatrix
  | [], m, aabb, insts, warns => by simp [ceLoop]
  | pid :: rest, m, aabb, insts, warns => by
      cases hg : jsGet m.primitives pid with
      | none =>
          simp only [ceLoop, hg]
          exact ceLoop_fields hasReused mmat rest m aabb insts
            (warns ++ [missingPrimitiveMsg pid])
      | some pIdx =>
          simp only [ceLoop, hg]
          exact ceLoop_fields hasReused mmat rest _ _ _ _

/-- The `createEntity` per-id loop appends exactly one instance per
known primitive id. -/
theorem ceLoop_len (hasReused : Bool) (mmat : Mat4) : ∀ (pids : List String)
    (m : Model) (aabb : AABB) (insts : List ℕ) (warns : List String),
    (ceLoop hasReused mmat pids m aabb insts warns).1.primitiveInstancesList.length
      = m.primitiveInstancesList.length
        + (pids.filter (fun pid => (jsGet m.primitives pid).isSome)).length
  | [], m, aabb, insts, warns => by simp [ceLoop]
  | pid :: rest, m, aabb, insts, warns => by
      cases hg : jsGet m.primitives pid with
      | none =>
          simp only [ceLoop, hg]
          rw [ceLoop_len hasReused mmat rest]
          simp [List.filter_cons, hg]
      | some pIdx =>
          simp only [ceLoop, hg]
          rw [ceLoop_len hasReused mmat rest]
          simp [List.filter_cons, hg]
          omega

/-- The `createEntity` per-id loop hands the entity the consecutive run
of freshly created instance indices. -/
theorem ceLoop_insts (hasReused : Bool) (mmat : Mat4) : ∀ (pids : List String)
    (m : Model) (aabb : AABB) (insts : List ℕ) (warns : List String),
    (ceLoop hasReused mmat pids m aabb insts warns).2.2.1
      = insts ++ List.range' m.primitiveInstancesList.length
          (pids.filter (fun pid => (jsGet m.primitives pid).isSome)).length
  | [], m, aabb, insts, warns => by simp [ceLoop]
  | pid :: rest, m, aabb, insts, warns => by
      cases hg : jsGet m.primitives pid with
      | none =>
          simp only [ceLoop, hg]
          rw [ceLoop_insts hasReused mmat rest]
          simp [List.filter_cons, hg]
      | some pIdx =>
          simp only [ceLoop, hg]
          rw [ceLoop_insts hasReused mmat rest]
          simp [List.filter_cons, hg, List.range'_succ]

/-- The `createEntity` per-id loop logs one "primitive not found"
warning per unknown id, in order. -/
theorem ceLoop_warns (hasReused : Bool) (mmat : Mat4) : ∀ (pids : List String)
    (m : Model) (aabb : AABB) (insts : List ℕ) (warns : List String),
    (ceLoop hasReused mmat pids m aabb insts warns).2.2.2
      = warns ++ (pids.filter
          (fun pid => (jsGet m.primitives pid).isNone)).map missingPrimitiveMsg
  | [], m, aabb, insts, warns => by simp [ceLoop]
  | pid :: rest, m, aabb, insts, warns => by
      cases hg : jsGet m.primitives pid with
      | none =>
          simp only [ceLoop, hg]
          rw [ceLoop_warns hasReused mmat rest]
          simp [List.filter_cons, hg]
      | some pIdx =>
          simp only [ceLoop, hg]
          rw [ceLoop_warns hasReused mmat rest]
          simp [List.filter_cons, hg]

/-- Full behaviour of `createEntity`: the entity list grows by one, the
new entity carries the requested id and the run of fresh instance
indices, the id is bound in the map to the new index, one instance is
appended per known primitive id, and one warning is logged per unknown
id. -/
theorem createEntity_spec (m : Model) (eid : String) (mmat : Mat4)
    (pids : List String) (hasReused : Bool) :
    (createEntity m eid mmat pids hasReused).1.entitiesList.length
        = m.entitiesList.length + 1
    ∧ ((createEntity m eid mmat pids hasReused).1.entitiesList.getD
        m.entitiesList.length defaultEntity).entityId = eid
    ∧ ((createEntity m eid mmat pids hasReused).1.entitiesList.getD
        m.entitiesList.length defaultEntity).primitiveInstances
        = List.range' m.primitiveInstancesList.length
            (pids.filter (fun pid => (jsGet m.primitives pid).isSome)).length
    ∧ jsGet (createEntity m eid mmat pids hasReused).1.entities eid
        = some m.entitiesList.length
    ∧ (createEntity m eid mmat pids hasReused).1.primitiveInstancesList.length
        = m.primitiveInstancesList.length
          + (pids.filter (fun pid => (jsGet m.primitives pid).isSome)).length
    ∧ (createEntity m eid mmat pids hasReused).2
        = (pids.filter
            (fun pid => (jsGet m.primitives pid).isNone)).map missingPrimitiveMsg := by
  obtain ⟨-, -, h3, h4, -, -⟩ := ceLoop_fields hasReused mmat pids m collapseAABB3 [] []
  have h7 := ceLoop_len hasReused mmat pids m collapseAABB3 [] []
  have h8 := ceLoop_insts hasReused mmat pids m collapseAABB3 [] []
  have h9 := ceLoop_warns hasReused mmat pids m collapseAABB3 [] []
  unfold createEntity
  simp only [h3, h4, h8, h9, List.nil_append]
  refine ⟨by simp, ?_, ?_, jsGet_jsSet .., by simp [h7], trivial⟩
  · simp [getD_append_length]
  · simp [getD_append_length]

/-- C8 (confirmed): `createEntity` never fails on unknown primitive ids —
it creates exactly one instance per known id (handing the entity the run
of fresh instance indices), logs one "primitive not found" warning per
unknown id in order, and still registers the entity: the entity list
grows by one, the new entity carries the requested id, and the id is
bound in the entities map to the new index. -/
theorem c8_unknown_primitive_refs (m : Model) (eid : String) (mmat : Mat4)
    (pids : List String) (hasReused : Bool) :
    (createEntity m eid mmat pids hasReused).1.entitiesList.length
        = m.entitiesList.length + 1
    ∧ ((createEntity m eid mmat pids hasReused).1.entitiesList.getD
        m.entitiesList.length defaultEntity).entityId = eid
    ∧ ((createEntity m eid mmat pids hasReused).1.entitiesList.getD
        m.entitiesList.length defaultEntity).primitiveInstances
        = List.range' m.primitiveInstancesList.length
            (pids.filter (fun pid => (jsGet m.primitives pid).isSome)).length
    ∧ jsGet (createEntity m eid mmat pids hasReused).1.entities eid
        = some m.entitiesList.length
    ∧ (createEntity m eid mmat pids hasReused).1.primitiveInstancesList.length
        = m.primitiveInstancesList.length
          + (pids.filter (fun pid => (jsGet m.primitives pid).isSome)).length
    ∧ (createEntity m eid mmat pids hasReused).2
        = (pids.filter
            (fun pid => (jsGet m.primitives pid).isNone)).map missingPrimitiveMsg :=
  createEntity_spec m eid mmat pids hasReused

/-- Witness for `c8_unknown_primitive_refs` at a model holding primitive
`"a"`, with one known and one unknown reference. -/
theorem c8_unknown_primitive_refs_witness :
    (createEntity exC3primBase "ew" identityMat4 ["a", "zz"]
        false).1.entitiesList.length = exC3primBase.entitiesList.length + 1
    ∧ (createEntity exC3primBase "ew" identityMat4 ["a", "zz"] false).2
      = (["a", "zz"].filter
          (fun pid => (jsGet exC3primBase.primitives pid).isNone)).map missingPrimitiveMsg :=
  ⟨(c8_unknown_primitive_refs exC3primBase "ew" identityMat4 ["a", "zz"] false).1,
   (c8_unknown_primitive_refs exC3primBase "ew" identityMat4 ["a", "zz"] false).2.2.2.2.2⟩

/-- C3 (corrected), amended claim: a `createPrimitive` or `createEntity`
call whose id is already present does not fail and does not leave the
model unchanged: the new object is appended to the insertion-ordered
list, and the id's binding in the map is replaced by the new dense
index. -/
theorem c3_amended (m : Model) (pid eid : String) (reused : Bool) (mmat : Mat4)
    (color : List ℚ) (opacity : ℚ) (positions normals : List ℚ) (indices : List ℕ)
    (pids : List String) (hasReused : Bool)
    (hp : (jsGet m.primitives pid).isSome) (he : (jsGet m.entities eid).isSome) :
    (createPrimitive m pid reused mmat color opacity positions normals
        indices).primitivesList
      = m.primitivesList
        ++ [newPrimOf m pid reused mmat color opacity positions normals indices]
    ∧ jsGet (createPrimitive m pid reused mmat color opacity positions normals
        indices).primitives pid = some m.primitivesList.length
    ∧ (createEntity m eid mmat pids hasReused).1.entitiesList.length
        = m.entitiesList.length + 1
    ∧ jsGet (createEntity m eid mmat pids hasReused).1.entities eid
        = some m.entitiesList.length := by
  refine ⟨?_, ?_, ?_, ?_⟩
  · simp [createPrimitive, newPrimOf, getD_append_length]
  · simp [createPrimitive, jsGet_jsSet]
  · exact (createEntity_spec m eid mmat pids hasReused).1
  · exact (createEntity_spec m eid mmat pids hasReused).2.2.2.1

/-- Witness for `c3_amended` on a model that already holds primitive
`"a"` and entity `"e"`. -/
theorem c3_amended_witness :
    ((jsGet exC3entBase.primitives "a").isSome ∧ (jsGet exC3entBase.entities "e").isSome)
    ∧ ((createPrimitive exC3entBase "a" false identityMat4 [1, 0, 0] 1 [0, 0, 0]
          [0, 0, 0] []).primitivesList
        = exC3entBase.primitivesList
          ++ [newPrimOf exC3entBase "a" false identityMat4 [1, 0, 0] 1 [0, 0, 0]
              [0, 0, 0] []]
      ∧ jsGet (createPrimitive exC3entBase "a" false identityMat4 [1, 0, 0] 1
          [0, 0, 0] [0, 0, 0] []).primitives "a" = some exC3entBase.primitivesList.length
      ∧ (createEntity exC3entBase "e" identityMat4 ["a"] false).1.entitiesList.length
        = exC3entBase.entitiesList.length + 1
      ∧ jsGet (createEntity exC3entBase "e" identityMat4 ["a"] false).1.entities "e"
        = some exC3entBase.entitiesList.length) :=
  ⟨⟨by with_unfolding_all decide, by with_unfolding_all decide⟩,
   c3_amended exC3entBase "a" "e" false identityMat4 [1, 0, 0] 1 [0, 0, 0] [0, 0, 0]
     [] ["a"] false (by with_unfolding_all decide) (by with_unfolding_all decide)⟩

/-- The split axis maximises the AABB edge length, with ties broken
toward the lower axis index: every axis is no longer than the chosen
one, and every axis *below* the chosen one is strictly shorter. -/
theorem kdLongestDim_spec (a : AABB) : ∀ k : Fin 3,
    dimLen a k ≤ dimLen a (kdLongestDim a)
    ∧ (k < kdLongestDim a → dimLen a k < dimLen a (kdLongestDim a)) := by
  intro k
  unfold kdLongestDim
  split_ifs with h1 h2 h3 <;>
    fin_cases k <;>
    constructor <;>
    simp_all <;>
    linarith

/-- C7 (confirmed): when `_insertEntityIntoKDTree` reaches the split
step (the depth cap is not hit and no existing child contains the
entity's AABB), it picks the longest axis of the node AABB with ties
toward the lower index; a missing left child whose half contains the
entity receives it by recursion; otherwise a missing right child whose
half contains it receives it by recursion (an already existing child is
kept and a missing one is created with its half-AABB either way); and
when neither half contains the entity, the entity is held at the node,
the node AABB is expanded by the entity's, and both missing children are
created with the half-AABBs. -/
theorem c7_kdtree_split (aabb : AABB) (l r : Option KDNode) (es : List ℕ)
    (e : ℕ) (ea : AABB) (d maxD : ℕ)
    (hd : d < maxD)
    (hl : ∀ ln, l = some ln → containsAABB3 ln.aabb ea = false)
    (hr : ∀ rn, r = some rn → containsAABB3 rn.aabb ea = false) :
    (∀ k : Fin 3, dimLen aabb k ≤ dimLen aabb (kdLongestDim aabb)
      ∧ (k < kdLongestDim aabb → dimLen aabb k < dimLen aabb (kdLongestDim aabb)))
    ∧ (l = none → containsAABB3 (halfLeft aabb (kdLongestDim aabb)) ea = true →
        insertEntityIntoKDTree (KDNode.mk aabb l r es) e ea d maxD
          = KDNode.mk aabb
              (some (insertEntityIntoKDTree
                (KDNode.mk (halfLeft aabb (kdLongestDim aabb)) none none [])
                e ea (d + 1) maxD))
              r es)
    ∧ ((l = none → containsAABB3 (halfLeft aabb (kdLongestDim aabb)) ea = false) →
        r = none → containsAABB3 (halfRight aabb (kdLongestDim aabb)) ea = true →
        insertEntityIntoKDTree (KDNode.mk aabb l r es) e ea d maxD
          = KDNode.mk aabb (fillChild l (halfLeft aabb (kdLongestDim aabb)))
              (some (insertEntityIntoKDTree
                (KDNode.mk (halfRight aabb (kdLongestDim aabb)) none none [])
                e ea (d + 1) maxD))
              es)
    ∧ ((l = none → containsAABB3 (halfLeft aabb (kdLongestDim aabb)) ea = false) →
        (r = none → containsAABB3 (halfRight aabb (kdLongestDim aabb)) ea = false) →
        insertEntityIntoKDTree (KDNode.mk aabb l r es) e ea d maxD
          = KDNode.mk (expandAABB3 aabb ea)
              (fillChild l (halfLeft aabb (kdLongestDim aabb)))
              (fillChild r (halfRight aabb (kdLongestDim aabb)))
              (es ++ [e])) := by
  obtain ⟨f, hf⟩ : ∃ f, maxD - d = f + 1 :=
    ⟨maxD - d - 1, by omega⟩
  have hf2 : maxD - (d + 1) = f := by omega
  refine ⟨kdLongestDim_spec aabb, ?_, ?_, ?_⟩
  · intro hln hc
    subst hln
    cases r with
    | none =>
        simp [insertEntityIntoKDTree, hf, hf2, insertGo, hc]
    | some rn =>
        have hrc := hr rn rfl
        simp [insertEntityIntoKDTree, hf, hf2, insertGo, hc, hrc]
  · intro hlc hrn hc
    subst hrn
    cases l with
    | none =>
        have hlc2 := hlc rfl
        simp [insertEntityIntoKDTree, hf, hf2, insertGo, hc, hlc2, fillChild]
    | some ln =>
        have hlc2 := hl ln rfl
        simp [insertEntityIntoKDTree, hf, hf2, insertGo, hc, hlc2, fillChild]
  · intro hlc hrc
    cases l with
    | none =>
        have hlc2 := hlc rfl
        cases r with
        | none =>
            have hrc2 := hrc rfl
            simp [insertEntityIntoKDTree, hf, insertGo, hlc2, hrc2, fillChild]
        | some rn =>
            have hrn := hr rn rfl
            simp [insertEntityIntoKDTree, hf, insertGo, hlc2, hrn, fillChild]
    | some ln =>
        have hln := hl ln rfl
        cases r with
        | none =>
            have hrc2 := hrc rfl
            simp [insertEntityIntoKDTree, hf, insertGo, hln, hrc2, fillChild]
        | some rn =>
            have hrn := hr rn rfl
            simp [insertEntityIntoKDTree, hf, insertGo, hln, hrn, fillChild]

/-- Witness for `c7_kdtree_split`: a fresh node over `[0,4]×[0,2]×[0,2]`
(longest axis x) receives an entity contained in the left half. -/
theorem c7_kdtree_split_witness :
    (1 < 5)
    ∧ insertEntityIntoKDTree (KDNode.mk ⟨0, 0, 0, 4, 2, 2⟩ none none [])
        7 ⟨0, 0, 0, 1, 1, 1⟩ 1 5
      = KDNode.mk ⟨0, 0, 0, 4, 2, 2⟩
          (some (insertEntityIntoKDTree
            (KDNode.mk (halfLeft ⟨0, 0, 0, 4, 2, 2⟩ (kdLongestDim ⟨0, 0, 0, 4, 2, 2⟩))
              none none [])
            7 ⟨0, 0, 0, 1, 1, 1⟩ 2 5))
          none [] :=
  ⟨by decide,
   (c7_kdtree_split ⟨0, 0, 0, 4, 2, 2⟩ none none [] 7 ⟨0, 0, 0, 1, 1, 1⟩ 1 5
      (by decide) (fun ln h => nomatch h) (fun rn h => nomatch h)).2.1
     rfl (by with_unfolding_all decide)⟩

/-- C10 (corrected), counterexample: the claim says the entity order
during tiling is fully determined by insertion order and never by
iterating an associative map.  `_createKDTree` iterates the `entities`
map with `for...in`; with the array-index-like ids `"10"` and `"2"`
inserted in that order, the JavaScript enumeration visits `"2"` first,
so the kd-tree visit order is `[1, 0]`, not the insertion order
`[0, 1]`. -/
theorem c10_counterexample :
    exC10model.entitiesList.map (fun e => e.entityIndex) = [0, 1]
    ∧ exC10model.entities.map (fun kv => kv.1) = ["10", "2"]
    ∧ kdVisitOrder exC10model = [1, 0]
    ∧ kdVisitOrder exC10model ≠ exC10model.entitiesList.map (fun e => e.entityIndex) :=
  ⟨by with_unfolding_all decide, by with_unfolding_all decide,
   by with_unfolding_all decide, by with_unfolding_all decide⟩

/-- Association lists with no array-index keys are enumerated in
creation order by `for...in`. -/
theorem forInEntries_of_no_index (l : List (String × ℕ))
    (h : ∀ kv ∈ l, isArrayIndexKey kv.1 = none) : forInEntries l = l := by
  unfold forInEntries
  have h1 : l.filterMap (fun kv => (isArrayIndexKey kv.1).map (fun n => (n, kv))) = [] := by
    induction l with
    | nil => rfl
    | cons kv rest ih =>
        have hk := h kv (by simp)
        simp only [List.filterMap_cons, hk, Option.map_none']
        exact ih (fun kv2 hkv2 => h kv2 (by simp [hkv2]))
  have h2 : l.filter (fun kv => (isArrayIndexKey kv.1).isNone) = l := by
    rw [List.filter_eq_self]
    intro kv hkv
    simp [h kv hkv]
  rw [h1, h2]
  simp [sortByNum]

/-- C10 (corrected), amended claim: the tiling pass visits entities in
the JavaScript `for...in` order of the `entities` map — array-index-like
ids first in ascending numeric order, then the remaining ids in creation
order.  When no entity id is an array-index string (and the map lists
the entity indices in insertion order, as the builder maintains), this
coincides with insertion order; the counterexample shows it differs
otherwise.  The encode remains a pure function of the model, so equal
inputs still yield equal outputs. -/
theorem c10_amended (m : Model)
    (hids : ∀ kv ∈ m.entities, isArrayIndexKey kv.1 = none)
    (hmap : m.entities.map (fun kv => kv.2) = List.range m.entitiesList.length) :
    forInEntries m.entities = m.entities
    ∧ kdVisitOrder m = List.range m.entitiesList.length := by
  have h := forInEntries_of_no_index m.entities hids
  exact ⟨h, by rw [kdVisitOrder, h, hmap]⟩

/-- Witness for `c10_amended` on a model with the non-numeric entity ids
`"ea"` and `"eb"`. -/
theorem c10_amended_witness :
    ((∀ kv ∈ exC10clean.entities, isArrayIndexKey kv.1 = none)
      ∧ exC10clean.entities.map (fun kv => kv.2) = List.range exC10clean.entitiesList.length)
    ∧ (forInEntries exC10clean.entities = exC10clean.entities
      ∧ kdVisitOrder exC10clean = List.range exC10clean.entitiesList.length) :=
  ⟨⟨by with_unfolding_all decide, by with_unfolding_all decide⟩,
   c10_amended exC10clean (by with_unfolding_all decide) (by with_unfolding_all decide)⟩

/-! ### Parser lemmas (C9, C6) -/

/-- A nonempty filter yields a member satisfying the predicate. -/
theorem exists_of_filter_len_pos {α : Type} (l : List α) (p : α → Bool)
    (h : 0 < (l.filter p).length) : ∃ c ∈ l, p c = true := by
  obtain ⟨c, hc⟩ := List.exists_mem_of_length_pos h
  rw [List.mem_filter] at hc
  exact ⟨c, hc.1, hc.2⟩

/-- A member satisfying the predicate makes the filter nonempty. -/
theorem filter_len_pos_of_exists {α : Type} (l : List α) (p : α → Bool)
    (h : ∃ c ∈ l, p c = true) : 0 < (l.filter p).length := by
  obtain ⟨c, hm, hp⟩ := h
  exact List.length_pos.mpr
    (List.ne_nil_of_mem (List.mem_filter.mpr ⟨hm, hp⟩))

/-- Each instance-loop step materialises exactly one mesh and no scene
entity. -/
theorem processInstance_calls (data : InflatedData) (tdm emat : List ℚ)
    (i : ℕ) (s : PState) :
    ((processInstance data tdm emat i s).2.filter (fun c => isMeshCall c)).length = 1
    ∧ ((processInstance data tdm emat i s).2.filter (fun c => isEntityCall c)).length = 0 := by
  unfold processInstance
  dsimp only
  split_ifs <;> simp [isMeshCall, isEntityCall]

/-- The instance loop materialises one mesh per instance, no scene
entities, and one mesh id per instance. -/
theorem runInstances_calls (data : InflatedData) (tdm emat : List ℚ) :
    ∀ (idxs : List ℕ) (s : PState),
    ((runInstances data tdm emat idxs s).2.1.filter (fun c => isMeshCall c)).length
      = idxs.length
    ∧ ((runInstances data tdm emat idxs s).2.1.filter (fun c => isEntityCall c)).length = 0
    ∧ (runInstances data tdm emat idxs s).2.2.length = idxs.length
  | [], s => by simp [runInstances]
  | i :: is, s => by
      obtain ⟨h1, h2⟩ := processInstance_calls data tdm emat i s
      obtain ⟨ih1, ih2, ih3⟩ :=
        runInstances_calls data tdm emat is (processInstance data tdm emat i s).1
      refine ⟨?_, ?_, ?_⟩
      · simp [runInstances, List.filter_append, h1, ih1]
        omega
      · simp [runInstances, List.filter_append, h2, ih2]
      · simp [runInstances, ih3]

/-- C9 (confirmed): for every entity the parser decodes, the number of
meshes it materialises equals the size of the entity's instance range,
and `createEntity` is issued on the scene builder if and only if at
least one mesh call was issued for that entity. -/
theorem c9_entity_iff_mesh (data : InflatedData) (tdm : List ℚ) (tei : ℕ) (s : PState) :
    (((processEntity data tdm tei s).2.filter (fun c => isMeshCall c)).length
        = (entityInstanceRange data tei).2 - (entityInstanceRange data tei).1)
    ∧ ((∃ c ∈ (processEntity data tdm tei s).2, isEntityCall c = true)
        ↔ (∃ c ∈ (processEntity data tdm tei s).2, isMeshCall c = true)) := by
  obtain ⟨h1, h2, h3⟩ := runInstances_calls data tdm (entityMatrixOf data tei)
    (List.range' (entityInstanceRange data tei).1
      ((entityInstanceRange data tei).2 - (entityInstanceRange data tei).1)) s
  rw [List.length_range'] at h1 h3
  unfold processEntity
  dsimp only
  split_ifs with hE
  · dsimp only
    have hlen0 : (entityInstanceRange data tei).2 - (entityInstanceRange data tei).1 = 0 := by
      have h0 := List.isEmpty_iff.mp hE
      rw [h0] at h3
      simpa using h3.symm
    refine ⟨by rw [h1], ?_⟩
    constructor
    · intro h
      have hp := filter_len_pos_of_exists _ _ h
      rw [h2] at hp
      exact absurd hp (by simp)
    · intro h
      have hp := filter_len_pos_of_exists _ _ h
      rw [h1, hlen0] at hp
      exact absurd hp (by simp)
  · dsimp only
    have hlenpos : 0 < (entityInstanceRange data tei).2 - (entityInstanceRange data tei).1 := by
      rcases Nat.eq_zero_or_pos ((entityInstanceRange data tei).2
        - (entityInstanceRange data tei).1) with h0 | hp
      · exfalso
        apply hE
        rw [List.isEmpty_iff, ← List.length_eq_zero, h3, h0]
      · exact hp
    have hmesh1 : ((runInstances data tdm (entityMatrixOf data tei)
        (List.range' (entityInstanceRange data tei).1
          ((entityInstanceRange data tei).2 - (entityInstanceRange data tei).1)) s).2.1
          ++ [Call.createSceneEntity (data.eachEntityId.getD tei "") true
            (runInstances data tdm (entityMatrixOf data tei)
              (List.range' (entityInstanceRange data tei).1
                ((entityInstanceRange data tei).2 - (entityInstanceRange data tei).1)) s).2.2]
        ).filter (fun c => isMeshCall c)
        = (runInstances data tdm (entityMatrixOf data tei)
            (List.range' (entityInstanceRange data tei).1
              ((entityInstanceRange data tei).2 - (entityInstanceRange data tei).1)) s).2.1.filter
            (fun c => isMeshCall c) := by
          rw [List.filter_append]
          simp [isMeshCall]
    refine ⟨by rw [hmesh1, h1], ?_⟩
    constructor
    · intro _
      apply exists_of_filter_len_pos
      rw [hmesh1, h1]
      omega
    · intro _
      refine ⟨Call.createSceneEntity (data.eachEntityId.getD tei "") true
          (runInstances data tdm (entityMatrixOf data tei)
            (List.range' (entityInstanceRange data tei).1
              ((entityInstanceRange data tei).2 - (entityInstanceRange data tei).1)) s).2.2,
        ?_, rfl⟩
      simp

/-- Witness for `c9_entity_iff_mesh` at the concrete wire image, tile 0,
entity 0. -/
theorem c9_entity_iff_mesh_witness :
    ((processEntity exData (List.replicate 16 (0 : ℚ)) 0 ⟨[], 0⟩).2.filter
        (fun c => isMeshCall c)).length
      = (entityInstanceRange exData 0).2 - (entityInstanceRange exData 0).1 :=
  (c9_entity_iff_mesh exData (List.replicate 16 (0 : ℚ)) 0 ⟨[], 0⟩).1

/-- Phase composition preserves the geometry invariant. -/
theorem gprops_comp (data : InflatedData) (g : String) (s0 s1 s2 : PState)
    (c1 c2 : List Call) (h1 : GProps data g s0 s1 c1) (h2 : GProps data g s1 s2 c2) :
    GProps data g s0 s2 (c1 ++ c2) := by
  obtain ⟨a1, a2, a3, a4, a5⟩ := h1
  obtain ⟨b1, b2, b3, b4, b5⟩ := h2
  have hcat : countGeom (c1 ++ c2) g = countGeom c1 g + countGeom c2 g := by
    simp [countGeom, List.filter_append]
  refine ⟨fun h => b1 (a1 h), ?_, ?_, ?_, ?_⟩
  · intro h
    have e1 := a2 h
    have e2 := b2 (a1 h)
    omega
  · by_cases hm : g ∈ s1.geometryCreated
    · have e2 := b2 hm
      omega
    · have e1 : countGeom c1 g ≠ 1 := fun h => hm (a4 h)
      omega
  · intro htot
    by_cases h1c : countGeom c1 g = 1
    · exact b1 (a4 h1c)
    · have h2c : countGeom c2 g = 1 := by omega
      exact b4 h2c
  · intro call hc hgc
    rcases List.mem_append.mp hc with h | h
    · exact a5 call h hgc
    · exact b5 call h hgc

/-- The empty phase satisfies the geometry invariant. -/
theorem gprops_nil (data : InflatedData) (g : String) (s : PState) :
    GProps data g s s [] := by
  refine ⟨fun h => h, fun _ => rfl, by simp [countGeom], by simp [countGeom], ?_⟩
  intro call hc
  simp at hc

/-- Appending a scene-entity call preserves the geometry invariant. -/
theorem gprops_append_entity (data : InflatedData) (g : String) (s s2 : PState)
    (c : List Call) (eid : String) (isObj : Bool) (mids : List ℕ)
    (h : GProps data g s s2 c) :
    GProps data g s s2 (c ++ [Call.createSceneEntity eid isObj mids]) := by
  obtain ⟨a1, a2, a3, a4, a5⟩ := h
  have hcat : countGeom (c ++ [Call.createSceneEntity eid isObj mids]) g
      = countGeom c g := by
    simp [countGeom, List.filter_append, geomCallId]
  refine ⟨a1, fun h => by rw [hcat]; exact a2 h, by rw [hcat]; exact a3,
    fun h => a4 (by rw [hcat] at h; exact h), ?_⟩
  intro call hc hgc
  rcases List.mem_append.mp hc with h | h
  · exact a5 call h hgc
  · simp at h
    subst h
    simp [isGeometryCall] at hgc

/-- One instance step satisfies the geometry invariant. -/
theorem processInstance_gprops (data : InflatedData) (tdm emat : List ℚ)
    (i : ℕ) (s : PState) (g : String) :
    GProps data g s (processInstance data tdm emat i s).1
      (processInstance data tdm emat i s).2 := by
  unfold processInstance
  dsimp only
  generalize List.getD data.primitiveInstances i 0 = p
  split_ifs with h1 h2
  · refine ⟨fun h => h, fun _ => by simp [countGeom, geomCallId],
      by simp [countGeom, geomCallId], by simp [countGeom, geomCallId], ?_⟩
    intro call hc hgc
    simp at hc
    subst hc
    simp [isGeometryCall] at hgc
  · by_cases hg : geometryIdOf p = g
    · subst hg
      refine ⟨fun h => List.mem_cons_of_mem _ h, fun h => absurd h h2,
        by simp [countGeom, geomCallId], fun _ => by simp, ?_⟩
      intro call hc hgc
      simp at hc
      rcases hc with rfl | rfl
      · simp [geomCallPDM]
      · simp [isGeometryCall] at hgc
    · refine ⟨fun h => List.mem_cons_of_mem _ h,
        fun _ => by simp [countGeom, geomCallId, hg],
        by simp [countGeom, geomCallId, hg],
        by simp [countGeom, geomCallId, hg], ?_⟩
      intro call hc hgc
      simp at hc
      rcases hc with rfl | rfl
      · simp [geomCallPDM]
      · simp [isGeometryCall] at hgc
  · refine ⟨fun h => h, fun _ => by simp [countGeom, geomCallId],
      by simp [countGeom, geomCallId], by simp [countGeom, geomCallId], ?_⟩
    intro call hc hgc
    simp at hc
    subst hc
    simp [isGeometryCall] at hgc

/-- The instance loop satisfies the geometry invariant. -/
theorem runInstances_gprops (data : InflatedData) (tdm emat : List ℚ) :
    ∀ (idxs : List ℕ) (s : PState) (g : String),
    GProps data g s (runInstances data tdm emat idxs s).1
      (runInstances data tdm emat idxs s).2.1
  | [], s, g => gprops_nil data g s
  | i :: is, s, g => by
      have hp := processInstance_gprops data tdm emat i s g
      have hq := runInstances_gprops data tdm emat is (processInstance data tdm emat i s).1 g
      simpa [runInstances] using gprops_comp data g _ _ _ _ _ hp hq

/-- The entity loop body satisfies the geometry invariant. -/
theorem processEntity_gprops (data : InflatedData) (tdm : List ℚ) (tei : ℕ)
    (s : PState) (g : String) :
    GProps data g s (processEntity data tdm tei s).1 (processEntity data tdm tei s).2 := by
  have hq := runInstances_gprops data tdm (entityMatrixOf data tei)
    (List.range' (entityInstanceRange data tei).1
      ((entityInstanceRange data tei).2 - (entityInstanceRange data tei).1)) s g
  unfold processEntity
  dsimp only
  split_ifs with hE
  · exact hq
  · exact gprops_append_entity data g _ _ _ _ _ _ hq

/-- The entity loop satisfies the geometry invariant. -/
theorem runEntities_gprops (data : InflatedData) (tdm : List ℚ) :
    ∀ (idxs : List ℕ) (s : PState) (g : String),
    GProps data g s (runEntities data tdm idxs s).1 (runEntities data tdm idxs s).2
  | [], s, g => gprops_nil data g s
  | i :: is, s, g => by
      have hp := processEntity_gprops data tdm i s g
      have hq := runEntities_gprops data tdm is (processEntity data tdm i s).1 g
      simpa [runEntities] using gprops_comp data g _ _ _ _ _ hp hq

/-- The tile loop body satisfies the geometry invariant. -/
theorem processTile_gprops (data : InflatedData) (ti : ℕ) (s : PState) (g : String) :
    GProps data g s (processTile data ti s).1 (processTile data ti s).2 := by
  unfold processTile
  dsimp only
  exact runEntities_gprops data _ _ s g

/-- The tile loop satisfies the geometry invariant. -/
theorem runTiles_gprops (data : InflatedData) :
    ∀ (idxs : List ℕ) (s : PState) (g : String),
    GProps data g s (runTiles data idxs s).1 (runTiles data idxs s).2
  | [], s, g => gprops_nil data g s
  | i :: is, s, g => by
      have hp := processTile_gprops data i s g
      have hq := runTiles_gprops data is (processTile data i s).1 g
      simpa [runTiles] using gprops_comp data g _ _ _ _ _ hp hq

/-- C6 (confirmed): across the whole file the parser creates each
geometry at most once (deduplicated through `geometryCreated`, whose keys
are derived from `primitive_index`), every geometry call carries
`instancedPrimitivesDecodeMatrix` as its decode matrix, and each
instance-loop step behaves per the instance histogram: a primitive with
instance count above one gets (at most) a fresh geometry plus a mesh
referencing that geometry with the entity's matrix, while any other
primitive gets a single self-contained mesh with the inline slices, the
tile's decode matrix, and inline color and opacity, with no entity
matrix. -/
theorem c6_parser_instancing (data : InflatedData) :
    (∀ g, countGeom (loadV6 data) g ≤ 1)
    ∧ (∀ c ∈ loadV6 data, isGeometryCall c = true →
        geomCallPDM c = some data.instancedPrimitivesDecodeMatrix)
    ∧ (∀ (tdm emat : List ℚ) (i : ℕ) (s : PState),
        (1 < instanceCountOf data (data.primitiveInstances.getD i 0) →
          geometryIdOf (data.primitiveInstances.getD i 0) ∉ s.geometryCreated →
          processInstance data tdm emat i s
            = (⟨geometryIdOf (data.primitiveInstances.getD i 0) :: s.geometryCreated,
                s.nextMeshId + 1⟩,
               [Call.createGeometry (geometryIdOf (data.primitiveInstances.getD i 0))
                  (primPositionsSlice data (data.primitiveInstances.getD i 0))
                  (primNormalsSlice data (data.primitiveInstances.getD i 0))
                  (primIndicesSlice data (data.primitiveInstances.getD i 0))
                  (primEdgeIndicesSlice data (data.primitiveInstances.getD i 0))
                  data.instancedPrimitivesDecodeMatrix,
                Call.createMeshInstanced s.nextMeshId
                  (geometryIdOf (data.primitiveInstances.getD i 0)) emat]))
        ∧ (1 < instanceCountOf data (data.primitiveInstances.getD i 0) →
            geometryIdOf (data.primitiveInstances.getD i 0) ∈ s.geometryCreated →
            processInstance data tdm emat i s
              = ({ s with nextMeshId := s.nextMeshId + 1 },
                 [Call.createMeshInstanced s.nextMeshId
                    (geometryIdOf (data.primitiveInstances.getD i 0)) emat]))
        ∧ (¬ 1 < instanceCountOf data (data.primitiveInstances.getD i 0) →
            processInstance data tdm emat i s
              = ({ s with nextMeshId := s.nextMeshId + 1 },
                 [Call.createMeshInline s.nextMeshId
                    (primPositionsSlice data (data.primitiveInstances.getD i 0))
                    (primNormalsSlice data (data.primitiveInstances.getD i 0))
                    (primIndicesSlice data (data.primitiveInstances.getD i 0))
                    (primEdgeIndicesSlice data (data.primitiveInstances.getD i 0))
                    tdm
                    (primColor data (data.primitiveInstances.getD i 0))
                    (primOpacity data (data.primitiveInstances.getD i 0))]))) := by
  have hrun := fun g => runTiles_gprops data
    (List.range data.eachTileEntitiesPortion.length) ⟨[], 0⟩ g
  refine ⟨?_, ?_, ?_⟩
  · intro g
    exact (hrun g).2.2.1
  · intro c hc hgc
    exact (hrun "").2.2.2.2 c hc hgc
  · intro tdm emat i s
    refine ⟨?_, ?_, ?_⟩
    · intro h1 h2
      unfold processInstance
      dsimp only
      rw [if_pos h1, if_neg h2]
    · intro h1 h2
      unfold processInstance
      dsimp only
      rw [if_pos h1, if_pos h2]
    · intro h1
      unfold processInstance
      dsimp only
      rw [if_neg h1]

/-- Witness for `c6_parser_instancing` on the concrete two-instance
wire image. -/
theorem c6_parser_instancing_witness :
    countGeom (loadV6 exData) "geometry0" ≤ 1 :=
  (c6_parser_instancing exData).1 "geometry0"

end XKT
